import Mathlib

/-!
Verification development for the "catch the star" motion game engine.

The repository contains two engine variants:
* the fallback variant (`part_001`): camera motion detection with a
  pointer/touch fallback mode (`OffEngine` below);
* the camera-only variant (second half of `index.tsx`): motion detection
  only (`CamEngine` below).

Numbers: fractional screen coordinates and animation scalars are modelled
as rationals (`ℚ`); timestamps as integers (milliseconds); pixel channel
values as naturals.  The source's `Math.sqrt(d) < 0.15` test is modelled
as `d < 0.15 ^ 2`, which is equivalent because the square root is
strictly monotone on nonnegative reals.
-/

set_option allowUnsafeReducibility true
attribute [local semireducible] Rat.add Rat.mul Rat.sub Rat.inv

namespace StarGame

/-- One sampled pixel: the three colour channels read from the motion canvas. -/
structure Rgb where
  r : Nat
  g : Nat
  b : Nat
deriving DecidableEq, Repr

/-- Sum of absolute channel differences between the current and previous
pixel, as computed in `detectMotion` of both variants. -/
def sad (c p : Rgb) : Nat :=
  ((c.r : Int) - p.r).natAbs + ((c.g : Int) - p.g).natAbs + ((c.b : Int) - p.b).natAbs

/-- A cell is flagged as "in motion" when the channel difference exceeds the
threshold (`diff > GESTURE_THRESHOLD` in the source). -/
def motionCell (thr : Nat) (c p : Rgb) : Bool :=
  decide (thr < sad c p)

/-- The motion map computed from the current and previous sampled frames:
one flag per cell of the current frame, comparing it with the
previous-frame cell at the same index.  A cell with no previous-frame
counterpart stays unflagged (in JS the comparison against `undefined`
is `NaN > thr`, i.e. false). -/
def motionMapOf (thr : Nat) : List Rgb → List Rgb → List Bool
  | [], _ => []
  | _ :: cur, [] => false :: motionMapOf thr cur []
  | c :: cur, p :: prev => motionCell thr c p :: motionMapOf thr cur prev

/-- The per-frame motion mask: flagged cells over a `width × height` grid. -/
structure MotionMask where
  map : List Bool
  width : Nat
  height : Nat
deriving DecidableEq, Repr

/-- The empty mask returned when no readable camera frame is available. -/
def emptyMask : MotionMask := ⟨[], 0, 0⟩

/-- A collectible star, exactly the fields of the source's `Star` interface. -/
structure Star where
  id : Int
  x : ℚ
  y : ℚ
  size : ℚ
  hue : ℚ
  active : Bool
  collected : Bool
  scale : ℚ
deriving DecidableEq, Repr

/-- The values drawn from `Math.random()` during one spawn attempt. -/
structure SpawnRnd where
  rx : ℚ
  ry : ℚ
  rsize : ℚ
  rhue : ℚ
deriving DecidableEq, Repr

/-- Count of motion-flagged cells in the square neighbourhood of radius `r`
around the star's mapped grid cell, as in the double loop of both
variants' `gameLoop` (out-of-range lookups read as unflagged). -/
def countHitsR (r : Nat) (mask : MotionMask) (x y : ℚ) : Nat :=
  let gridX : Int := Int.floor (x * (mask.width : ℚ))
  let gridY : Int := Int.floor (y * (mask.height : ℚ))
  let offs : List Int := (List.range (2 * r + 1)).map fun i => (i : Int) - r
  offs.foldl (fun acc dy =>
    offs.foldl (fun acc2 dx =>
      let gx := gridX + dx
      let gy := gridY + dy
      if 0 ≤ gx ∧ gx < (mask.width : Int) ∧ 0 ≤ gy ∧ gy < (mask.height : Int) ∧
          mask.map.getD (gy * (mask.width : Int) + gx).toNat false = true
      then acc2 + 1 else acc2) acc) 0

/-- Which input source produced a hit. -/
inductive HitSrc where
  | ptr
  | cam
deriving DecidableEq, Repr

/-- The filter keeps a star exactly when it is still active
(`return star.active` in both variants). -/
def keepStar (s : Star) : Option Star :=
  if s.active = true then some s else none

/-- Outcome of camera acquisition during `init` of the fallback variant. -/
inductive CamResult where
  | unsupported
  | notFound
  | denied
  | ok
deriving DecidableEq, Repr

namespace OffEngine

/-- Mutable engine state of the fallback variant (`part_001`):
`prevFrame`, `score`, `stars`, `lastStarTime`, `isPlaying`,
`cameraActive`, `lastTouchX/Y` (the `-1` sentinel means "no pointer"). -/
structure State where
  prevFrame : Option (List Rgb)
  score : Nat
  stars : List Star
  lastStarTime : Int
  isPlaying : Bool
  cameraActive : Bool
  lastTouchX : ℚ
  lastTouchY : ℚ
deriving DecidableEq, Repr

/-- The constructor's field defaults. -/
def mkState : State :=
  { prevFrame := none, score := 0, stars := [], lastStarTime := 0,
    isPlaying := false, cameraActive := false, lastTouchX := -1, lastTouchY := -1 }

/-- `init`: on successful camera acquisition `cameraActive` becomes true;
on unsupported API, device-not-found or permission denial,
`setFallbackMode` leaves `cameraActive` false.  The function is total:
no acquisition outcome raises an error. -/
def init (r : CamResult) : State :=
  match r with
  | .ok => { mkState with cameraActive := true }
  | _ => mkState

/-- `detectMotion` of the fallback variant: with no active camera or no
readable frame (`readyState < 2`) it returns the empty mask and leaves the
state (in particular `prevFrame`) untouched; otherwise it compares the
current sampled frame against the previous one (all-clear on the first
call) and retains the current frame. -/
def detectMotion (st : State) (ready : Nat) (w h : Nat) (pix : List Rgb) :
    MotionMask × State :=
  if st.cameraActive = false ∨ ready < 2 then
    (emptyMask, st)
  else
    let mm := match st.prevFrame with
      | some prev => motionMapOf 35 pix prev
      | none => List.replicate pix.length false
    (⟨mm, w, h⟩, { st with prevFrame := some pix })

/-- `spawnStar` of the fallback variant: spawn only when strictly more than
1000 ms have elapsed since the last successful spawn and fewer than 6 stars
have their `active` flag set; the new star's `id` is the timestamp. -/
def spawnStar (st : State) (now : Int) (rnd : SpawnRnd) : State :=
  if 1000 < now - st.lastStarTime ∧ (st.stars.filter fun s => s.active).length < 6 then
    { st with
      stars := st.stars ++ [{ id := now,
                              x := 15 / 100 + rnd.rx * (7 / 10),
                              y := 2 / 10 + rnd.ry * (6 / 10),
                              size := 30 + rnd.rsize * 30,
                              hue := rnd.rhue * 360,
                              active := true, collected := false, scale := 0 }],
      lastStarTime := now }
  else st

/-- Spawn fade-in: an uncollected star's scale ramps by 0.1 while below 1. -/
def fadeIn (star : Star) : Star :=
  if star.collected = false ∧ star.scale < 1 then
    { star with scale := star.scale + 1 / 10 }
  else star

/-- The pointer check: skipped when the sentinel `-1` is stored, otherwise a
hit within Euclidean distance 0.15 (compared in squared form). -/
def pointerHit (tx ty x y : ℚ) : Bool :=
  if tx = -1 then false
  else decide ((x - tx) ^ 2 + (y - ty) ^ 2 < (15 / 100 : ℚ) ^ 2)

/-- The per-star hit determination of the fallback variant's `gameLoop`:
the pointer check runs first; the camera check runs only when the pointer
produced no hit, the camera is active and the mask is non-empty, and it
registers when strictly more than 4 neighbourhood cells (radius 2) are
flagged. -/
def hitSrcOf (st : State) (mask : MotionMask) (x y : ℚ) : Option HitSrc :=
  if pointerHit st.lastTouchX st.lastTouchY x y then some .ptr
  else if st.cameraActive && decide (0 < mask.width) &&
      decide (4 < countHitsR 2 mask x y) then some .cam
  else none

/-- Side effects of the `Active → Collected` transition on the engine state:
award 10 points and reset the stored pointer to the sentinel. -/
def collectUpd (st : State) : State :=
  { st with score := st.score + 10, lastTouchX := -1, lastTouchY := -1 }

/-- Post-collection burst: scale grows by 0.2 each frame and the star is
deactivated once the scale exceeds the ceiling 4. -/
def burst (s : Star) : Star :=
  if s.collected = true then
    let s2 : Star := { s with scale := s.scale + 2 / 10 }
    if 4 < s2.scale then { s2 with active := false } else s2
  else s

/-- Result of processing one star in the frame filter: updated engine
state, the surviving star (if kept), and the hit source when the
collection branch ran (score award + collect chime). -/
structure StepRes where
  st : State
  kept : Option Star
  hit : Option HitSrc
deriving DecidableEq, Repr

/-- One iteration of the star filter body of the fallback `gameLoop`:
drop inactive stars; fade in; hit-test; on a first-time hit run the
collection side effects; advance the burst animation; keep iff active. -/
def stepStar (mask : MotionMask) (st : State) (star : Star) : StepRes :=
  if star.active = false then ⟨st, none, none⟩
  else if (hitSrcOf st mask star.x star.y).isSome = true ∧ star.collected = false then
    ⟨collectUpd st, keepStar (burst { fadeIn star with collected := true }),
      hitSrcOf st mask star.x star.y⟩
  else
    ⟨st, keepStar (burst (fadeIn star)), none⟩

/-- Result of the whole star filter: final state, surviving stars, number
of collections this frame, number of pointer-sourced collections. -/
structure FrameRes where
  st : State
  stars : List Star
  nCollect : Nat
  nPtr : Nat
deriving DecidableEq, Repr

/-- The star filter, threading the engine state left to right through the
stars exactly as `Array.prototype.filter` does in the source. -/
def runStars (mask : MotionMask) : State → List Star → FrameRes
  | st, [] => ⟨st, [], 0, 0⟩
  | st, star :: rest =>
    let r := stepStar mask st star
    let fr := runStars mask r.st rest
    ⟨fr.st, r.kept.toList ++ fr.stars,
      (if r.hit.isSome then 1 else 0) + fr.nCollect,
      (if r.hit = some .ptr then 1 else 0) + fr.nPtr⟩

/-- One `gameLoop` iteration of the fallback variant: do nothing when not
playing; otherwise sample motion, run the spawn policy, then filter the
stars.  Returns the new state together with the number of collections and
of pointer-sourced collections performed this frame. -/
def frameStep (st : State) (now : Int) (ready : Nat) (w h : Nat)
    (pix : List Rgb) (rnd : SpawnRnd) : State × Nat × Nat :=
  if st.isPlaying = false then (st, 0, 0)
  else
    let dm := detectMotion st ready w h pix
    let st2 := spawnStar dm.2 now rnd
    let fr := runStars dm.1 st2 st2.stars
    ({ fr.st with stars := fr.stars }, fr.nCollect, fr.nPtr)

/-- External events driving the fallback engine after initialisation:
the start button, pointer/touch activity (already normalised to fractional
coordinates), and one animation frame with its environment inputs. -/
inductive Ev where
  | start
  | record (x y : ℚ)
  | frame (now : Int) (ready : Nat) (w h : Nat) (pix : List Rgb) (rnd : SpawnRnd)

/-- One engine step: `start` is a no-op while playing, otherwise it resets
score and stars and begins the loop; `record` stores the latest pointer
position while playing; `frame` runs one `gameLoop` iteration. -/
def step (st : State) : Ev → State × Nat × Nat
  | .start =>
    (if st.isPlaying = true then st
     else { st with isPlaying := true, score := 0, stars := [] }, 0, 0)
  | .record x y =>
    (if st.isPlaying = true then { st with lastTouchX := x, lastTouchY := y } else st, 0, 0)
  | .frame now ready w h pix rnd => frameStep st now ready w h pix rnd

/-- Run a list of events. -/
def run (st : State) : List Ev → State
  | [] => st
  | e :: evs => run (step st e).1 evs

/-- Run a list of events while counting the collections performed since the
session started (an effective `start` resets the counter together with the
score). -/
def runScore : State → Nat → List Ev → State × Nat
  | st, c, [] => (st, c)
  | st, c, .start :: evs =>
    runScore (step st .start).1 (if st.isPlaying = true then c else 0) evs
  | st, c, e :: evs => runScore (step st e).1 (c + (step st e).2.1) evs

/-- Total number of pointer-sourced collections over a list of events. -/
def countPtr : State → List Ev → Nat
  | _, [] => 0
  | st, e :: evs => (step st e).2.2 + countPtr (step st e).1 evs

/-- The ids of the stars spawned along a run: `spawnStar` is the only
mutation of `lastStarTime` and records the new star's id there, so the
spawned ids are the successive values `lastStarTime` takes when it
changes. -/
def spawnTimes : State → List Ev → List Int
  | _, [] => []
  | st, e :: evs =>
    (if (step st e).1.lastStarTime = st.lastStarTime then []
     else [(step st e).1.lastStarTime]) ++ spawnTimes (step st e).1 evs

/-- Whether an event is pointer/touch activity. -/
def isRecord : Ev → Bool
  | .record _ _ => true
  | _ => false

/-! Helper lemmas about the fallback engine. -/

theorem stepStar_st_eq (mask : MotionMask) (st : State) (star : Star) :
    (stepStar mask st star).st =
      (if (stepStar mask st star).hit.isSome then collectUpd st else st) := by
  unfold stepStar
  split
  · simp
  · split
    next h => simp [h.1]
    · simp

theorem stepStar_frame_fields (mask : MotionMask) (st : State) (star : Star) :
    (stepStar mask st star).st.prevFrame = st.prevFrame ∧
    (stepStar mask st star).st.stars = st.stars ∧
    (stepStar mask st star).st.lastStarTime = st.lastStarTime ∧
    (stepStar mask st star).st.isPlaying = st.isPlaying ∧
    (stepStar mask st star).st.cameraActive = st.cameraActive := by
  rw [stepStar_st_eq]
  split <;> simp [collectUpd]

theorem stepStar_score (mask : MotionMask) (st : State) (star : Star) :
    (stepStar mask st star).st.score =
      st.score + (if (stepStar mask st star).hit.isSome then 10 else 0) := by
  rw [stepStar_st_eq]
  split <;> simp_all [collectUpd]

theorem stepStar_touch_of_hit (mask : MotionMask) (st : State) (star : Star)
    (h : (stepStar mask st star).hit.isSome = true) :
    (stepStar mask st star).st.lastTouchX = -1 ∧
    (stepStar mask st star).st.lastTouchY = -1 := by
  rw [stepStar_st_eq, h]
  simp [collectUpd]

theorem stepStar_touch_cases (mask : MotionMask) (st : State) (star : Star) :
    ((stepStar mask st star).st.lastTouchX = st.lastTouchX ∧
     (stepStar mask st star).st.lastTouchY = st.lastTouchY) ∨
    ((stepStar mask st star).st.lastTouchX = -1 ∧
     (stepStar mask st star).st.lastTouchY = -1) := by
  rw [stepStar_st_eq]
  split
  · right; simp [collectUpd]
  · left; simp

theorem stepStar_collected (mask : MotionMask) (st : State) (star : Star)
    (h : star.collected = true) :
    (stepStar mask st star).st = st ∧ (stepStar mask st star).hit = none := by
  unfold stepStar
  split
  · simp
  · split
    next hb => simp [h] at hb
    · simp

theorem pointerHit_sentinel (ty x y : ℚ) : pointerHit (-1) ty x y = false := by
  simp [pointerHit]

theorem hitSrcOf_ptr_iff (st : State) (mask : MotionMask) (x y : ℚ) :
    hitSrcOf st mask x y = some .ptr ↔
      pointerHit st.lastTouchX st.lastTouchY x y = true := by
  unfold hitSrcOf
  split
  · simp_all
  · split <;> simp_all

theorem hitSrcOf_cam_iff (st : State) (mask : MotionMask) (x y : ℚ) :
    hitSrcOf st mask x y = some .cam ↔
      (pointerHit st.lastTouchX st.lastTouchY x y = false ∧
       st.cameraActive = true ∧ 0 < mask.width ∧ 4 < countHitsR 2 mask x y) := by
  unfold hitSrcOf
  split
  · simp_all
  · split <;> simp_all

theorem hitSrcOf_of_ptr (st : State) (mask : MotionMask) (x y : ℚ)
    (h : pointerHit st.lastTouchX st.lastTouchY x y = true) :
    hitSrcOf st mask x y = some .ptr := by
  simp [hitSrcOf, h]

theorem stepStar_hit_ptr (mask : MotionMask) (st : State) (star : Star)
    (h : (stepStar mask st star).hit = some .ptr) :
    (stepStar mask st star).st.lastTouchX = -1 ∧
    (stepStar mask st star).st.lastTouchY = -1 := by
  refine stepStar_touch_of_hit mask st star ?_
  rw [h]
  rfl

theorem stepStar_sentinel (mask : MotionMask) (st : State) (star : Star)
    (h : st.lastTouchX = -1) :
    (stepStar mask st star).hit ≠ some .ptr ∧
    (stepStar mask st star).st.lastTouchX = -1 := by
  constructor
  · unfold stepStar
    split
    · simp
    · split
      · intro hc
        simp only at hc
        rw [hitSrcOf_ptr_iff, h, pointerHit_sentinel] at hc
        exact Bool.false_ne_true hc
      · simp
  · rcases stepStar_touch_cases mask st star with ⟨h1, _⟩ | ⟨h1, _⟩
    · rw [h1, h]
    · exact h1

theorem fadeIn_fields (s : Star) :
    (fadeIn s).id = s.id ∧ (fadeIn s).x = s.x ∧ (fadeIn s).y = s.y ∧
    (fadeIn s).active = s.active ∧ (fadeIn s).collected = s.collected := by
  unfold fadeIn
  split <;> simp

theorem burst_fields (s : Star) :
    (burst s).id = s.id ∧ (burst s).x = s.x ∧ (burst s).y = s.y ∧
    (burst s).collected = s.collected := by
  unfold burst
  split
  · dsimp only
    split <;> simp
  · simp

theorem burst_active (s : Star) :
    (burst s).active = s.active ∨ (burst s).active = false := by
  unfold burst
  split
  · dsimp only
    split
    · right; rfl
    · left; rfl
  · left; rfl

theorem keepStar_eq_some (s s' : Star) (h : keepStar s = some s') :
    s' = s ∧ s.active = true := by
  unfold keepStar at h
  split at h
  next ha => exact ⟨(Option.some_injective _ h).symm, ha⟩
  · simp at h

theorem stepStar_kept_id (mask : MotionMask) (st : State) (star : Star)
    (s' : Star) (h : (stepStar mask st star).kept = some s') : s'.id = star.id := by
  unfold stepStar at h
  split at h
  · simp at h
  · split at h <;> simp only at h <;> rcases keepStar_eq_some _ _ h with ⟨rfl, _⟩
    · rw [(burst_fields _).1]
      exact (fadeIn_fields star).1
    · rw [(burst_fields _).1]
      exact (fadeIn_fields star).1

theorem stepStar_kept_alive (mask : MotionMask) (st : State) (star : Star)
    (s' : Star) (h : (stepStar mask st star).kept = some s') :
    s'.active = true ∧ star.active = true ∧
    (s'.collected = false → star.collected = false) := by
  unfold stepStar at h
  split at h
  · simp at h
  next hact =>
    have hact' : star.active = true := by
      cases hs : star.active
      · exact absurd hs hact
      · rfl
    split at h <;> simp only at h <;> rcases keepStar_eq_some _ _ h with ⟨rfl, hA⟩
    · refine ⟨hA, hact', ?_⟩
      intro hc
      rw [(burst_fields _).2.2.2] at hc
      simp at hc
    · refine ⟨hA, hact', ?_⟩
      intro hc
      rw [(burst_fields _).2.2.2, (fadeIn_fields star).2.2.2.2] at hc
      exact hc

theorem runStars_frame_fields (mask : MotionMask) :
    ∀ (stars : List Star) (st : State),
    (runStars mask st stars).st.prevFrame = st.prevFrame ∧
    (runStars mask st stars).st.stars = st.stars ∧
    (runStars mask st stars).st.lastStarTime = st.lastStarTime ∧
    (runStars mask st stars).st.isPlaying = st.isPlaying ∧
    (runStars mask st stars).st.cameraActive = st.cameraActive := by
  intro stars
  induction stars with
  | nil => intro st; simp [runStars]
  | cons star rest ih =>
    intro st
    have h1 := stepStar_frame_fields mask st star
    have h2 := ih (stepStar mask st star).st
    simp only [runStars]
    exact ⟨h2.1.trans h1.1, h2.2.1.trans h1.2.1, h2.2.2.1.trans h1.2.2.1,
      h2.2.2.2.1.trans h1.2.2.2.1, h2.2.2.2.2.trans h1.2.2.2.2⟩

theorem runStars_score (mask : MotionMask) :
    ∀ (stars : List Star) (st : State),
    (runStars mask st stars).st.score = st.score + 10 * (runStars mask st stars).nCollect := by
  intro stars
  induction stars with
  | nil => intro st; simp [runStars]
  | cons star rest ih =>
    intro st
    have h1 := stepStar_score mask st star
    have h2 := ih (stepStar mask st star).st
    simp only [runStars]
    rw [h2, h1]
    split <;> ring

theorem runStars_ids_sublist (mask : MotionMask) :
    ∀ (stars : List Star) (st : State),
    List.Sublist ((runStars mask st stars).stars.map Star.id) (stars.map Star.id) := by
  intro stars
  induction stars with
  | nil => intro st; simp [runStars]
  | cons star rest ih =>
    intro st
    have h2 := ih (stepStar mask st star).st
    simp only [runStars, List.map_cons, List.map_append]
    cases hk : (stepStar mask st star).kept with
    | none => simpa [hk] using h2.cons star.id
    | some s' =>
      have hid := stepStar_kept_id mask st star s' hk
      simp only [hk, Option.toList_some, List.map_cons, List.map_nil,
        List.singleton_append, hid]
      exact h2.cons₂ star.id

theorem runStars_active_count (mask : MotionMask) :
    ∀ (stars : List Star) (st : State),
    (runStars mask st stars).stars.countP (fun s => s.active) ≤
      stars.countP (fun s => s.active) := by
  intro stars
  induction stars with
  | nil => intro st; simp [runStars]
  | cons star rest ih =>
    intro st
    have h2 := ih (stepStar mask st star).st
    simp only [runStars, List.countP_cons, List.countP_append]
    cases hk : (stepStar mask st star).kept with
    | none =>
      simp only [List.countP_nil, Option.toList_none]
      omega
    | some s' =>
      have ha := stepStar_kept_alive mask st star s' hk
      simp only [Option.toList_some, List.countP_cons, List.countP_nil, ha.1, ha.2.1]
      omega

theorem runStars_ptr (mask : MotionMask) :
    ∀ (stars : List Star) (st : State),
    (runStars mask st stars).nPtr ≤ 1 ∧
    (1 ≤ (runStars mask st stars).nPtr → (runStars mask st stars).st.lastTouchX = -1) ∧
    (st.lastTouchX = -1 →
      (runStars mask st stars).nPtr = 0 ∧ (runStars mask st stars).st.lastTouchX = -1) := by
  intro stars
  induction stars with
  | nil => intro st; simp [runStars]
  | cons star rest ih =>
    intro st
    have ih' := ih (stepStar mask st star).st
    simp only [runStars]
    by_cases hp : (stepStar mask st star).hit = some .ptr
    · have ht := stepStar_hit_ptr mask st star hp
      have h3 := ih'.2.2 ht.1
      refine ⟨?_, ?_, ?_⟩
      · simp [hp, h3.1]
      · intro _; exact h3.2
      · intro hs
        exact absurd hp (stepStar_sentinel mask st star hs).1
    · refine ⟨?_, ?_, ?_⟩
      · simp only [hp, if_false]
        omega
      · intro hge
        simp only [hp, if_false, Nat.zero_add] at hge
        exact ih'.2.1 hge
      · intro hs
        have hsen := stepStar_sentinel mask st star hs
        have h3 := ih'.2.2 hsen.2
        simp [hp, h3.1, h3.2]

theorem detectMotion_fields (st : State) (ready w h : Nat) (pix : List Rgb) :
    (detectMotion st ready w h pix).2.score = st.score ∧
    (detectMotion st ready w h pix).2.stars = st.stars ∧
    (detectMotion st ready w h pix).2.lastStarTime = st.lastStarTime ∧
    (detectMotion st ready w h pix).2.isPlaying = st.isPlaying ∧
    (detectMotion st ready w h pix).2.cameraActive = st.cameraActive ∧
    (detectMotion st ready w h pix).2.lastTouchX = st.lastTouchX ∧
    (detectMotion st ready w h pix).2.lastTouchY = st.lastTouchY := by
  unfold detectMotion
  split <;> simp

theorem spawnStar_fields (st : State) (now : Int) (rnd : SpawnRnd) :
    (spawnStar st now rnd).prevFrame = st.prevFrame ∧
    (spawnStar st now rnd).score = st.score ∧
    (spawnStar st now rnd).isPlaying = st.isPlaying ∧
    (spawnStar st now rnd).cameraActive = st.cameraActive ∧
    (spawnStar st now rnd).lastTouchX = st.lastTouchX ∧
    (spawnStar st now rnd).lastTouchY = st.lastTouchY := by
  unfold spawnStar
  split <;> simp

theorem spawnStar_active_count (st : State) (now : Int) (rnd : SpawnRnd)
    (h : st.stars.countP (fun s => s.active) ≤ 6) :
    (spawnStar st now rnd).stars.countP (fun s => s.active) ≤ 6 := by
  by_cases hg : 1000 < now - st.lastStarTime ∧
      (st.stars.filter fun s => s.active).length < 6
  · have hlt : st.stars.countP (fun s => s.active) < 6 := by
      have h6 := hg.2
      rwa [← List.countP_eq_length_filter] at h6
    simp only [spawnStar, if_pos hg]
    simp [List.countP_append, List.countP_cons]
    omega
  · simpa [spawnStar, if_neg hg] using h

theorem spawnStar_time (st : State) (now : Int) (rnd : SpawnRnd) :
    (spawnStar st now rnd).lastStarTime = st.lastStarTime ∨
    (st.lastStarTime < (spawnStar st now rnd).lastStarTime ∧
      (spawnStar st now rnd).lastStarTime = now) := by
  by_cases hg : 1000 < now - st.lastStarTime ∧
      (st.stars.filter fun s => s.active).length < 6
  · right
    have hl : (spawnStar st now rnd).lastStarTime = now := by
      simp [spawnStar, if_pos hg]
    rw [hl]
    exact ⟨by omega, rfl⟩
  · left
    simp [spawnStar, if_neg hg]

theorem spawnStar_changed (st : State) (now : Int) (rnd : SpawnRnd)
    (h : (spawnStar st now rnd).stars ≠ st.stars) :
    1000 < now - st.lastStarTime ∧
    (st.stars.filter fun s => s.active).length < 6 ∧
    (spawnStar st now rnd).lastStarTime = now ∧
    ∃ s : Star, (spawnStar st now rnd).stars = st.stars ++ [s] ∧
      s.id = now ∧ s.active = true ∧ s.collected = false ∧ s.scale = 0 := by
  by_cases hg : 1000 < now - st.lastStarTime ∧
      (st.stars.filter fun s => s.active).length < 6
  · refine ⟨hg.1, hg.2, by simp [spawnStar, if_pos hg], ?_⟩
    refine ⟨{ id := now, x := 15 / 100 + rnd.rx * (7 / 10),
              y := 2 / 10 + rnd.ry * (6 / 10), size := 30 + rnd.rsize * 30,
              hue := rnd.rhue * 360, active := true, collected := false,
              scale := 0 }, ?_, rfl, rfl, rfl, rfl⟩
    simp [spawnStar, if_pos hg]
  · exact absurd (by simp [spawnStar, if_neg hg]) h

theorem spawnStar_ids (st : State) (now : Int) (rnd : SpawnRnd)
    (hp : ((st.stars.map Star.id).Pairwise (· < ·)))
    (hb : ∀ s ∈ st.stars, s.id ≤ st.lastStarTime) :
    (((spawnStar st now rnd).stars.map Star.id).Pairwise (· < ·)) ∧
    (∀ s ∈ (spawnStar st now rnd).stars, s.id ≤ (spawnStar st now rnd).lastStarTime) := by
  by_cases hg : 1000 < now - st.lastStarTime ∧
      (st.stars.filter fun s => s.active).length < 6
  · simp only [spawnStar, if_pos hg]
    constructor
    · simp only [List.map_append, List.map_cons, List.map_nil]
      rw [List.pairwise_append]
      refine ⟨hp, by simp, ?_⟩
      intro a ha b hb'
      simp only [List.mem_map] at ha
      obtain ⟨s, hs, rfl⟩ := ha
      simp only [List.mem_cons, List.not_mem_nil, or_false] at hb'
      subst hb'
      have hsb := hb s hs
      have h1 := hg.1
      omega
    · intro s hs
      simp only [List.mem_append, List.mem_cons, List.not_mem_nil, or_false] at hs
      rcases hs with hs | rfl
      · have hsb := hb s hs
        have h1 := hg.1
        omega
      · simp
  · simpa [spawnStar, if_neg hg] using ⟨hp, hb⟩

theorem frameStep_flags (st : State) (now : Int) (ready w h : Nat)
    (pix : List Rgb) (rnd : SpawnRnd) :
    (frameStep st now ready w h pix rnd).1.isPlaying = st.isPlaying ∧
    (frameStep st now ready w h pix rnd).1.cameraActive = st.cameraActive := by
  unfold frameStep
  split
  · simp
  · dsimp only
    have hd := detectMotion_fields st ready w h pix
    have hs := spawnStar_fields (detectMotion st ready w h pix).2 now rnd
    have hr := runStars_frame_fields (detectMotion st ready w h pix).1
      (spawnStar (detectMotion st ready w h pix).2 now rnd).stars
      (spawnStar (detectMotion st ready w h pix).2 now rnd)
    constructor
    · dsimp only
      rw [hr.2.2.2.1, hs.2.2.1, hd.2.2.2.1]
    · dsimp only
      rw [hr.2.2.2.2, hs.2.2.2.1, hd.2.2.2.2.1]

theorem frameStep_score (st : State) (now : Int) (ready w h : Nat)
    (pix : List Rgb) (rnd : SpawnRnd) :
    (frameStep st now ready w h pix rnd).1.score =
      st.score + 10 * (frameStep st now ready w h pix rnd).2.1 := by
  unfold frameStep
  split
  · simp
  · dsimp only
    have hd := detectMotion_fields st ready w h pix
    have hs := spawnStar_fields (detectMotion st ready w h pix).2 now rnd
    have hr := runStars_score (detectMotion st ready w h pix).1
      (spawnStar (detectMotion st ready w h pix).2 now rnd).stars
      (spawnStar (detectMotion st ready w h pix).2 now rnd)
    rw [hr, hs.2.1, hd.1]

theorem frameStep_sentinel (st : State) (now : Int) (ready w h : Nat)
    (pix : List Rgb) (rnd : SpawnRnd) (hs0 : st.lastTouchX = -1) :
    (frameStep st now ready w h pix rnd).1.lastTouchX = -1 ∧
    (frameStep st now ready w h pix rnd).2.2 = 0 := by
  unfold frameStep
  split
  · simp [hs0]
  · dsimp only
    have hd := detectMotion_fields st ready w h pix
    have hs := spawnStar_fields (detectMotion st ready w h pix).2 now rnd
    have hts : (spawnStar (detectMotion st ready w h pix).2 now rnd).lastTouchX = -1 := by
      rw [hs.2.2.2.2.1, hd.2.2.2.2.2.1, hs0]
    have hr := (runStars_ptr (detectMotion st ready w h pix).1
      (spawnStar (detectMotion st ready w h pix).2 now rnd).stars
      (spawnStar (detectMotion st ready w h pix).2 now rnd)).2.2 hts
    exact ⟨hr.2, hr.1⟩

theorem frameStep_ptr (st : State) (now : Int) (ready w h : Nat)
    (pix : List Rgb) (rnd : SpawnRnd) :
    (frameStep st now ready w h pix rnd).2.2 ≤ 1 ∧
    (1 ≤ (frameStep st now ready w h pix rnd).2.2 →
      (frameStep st now ready w h pix rnd).1.lastTouchX = -1) := by
  unfold frameStep
  split
  · simp
  · dsimp only
    have hr := runStars_ptr (detectMotion st ready w h pix).1
      (spawnStar (detectMotion st ready w h pix).2 now rnd).stars
      (spawnStar (detectMotion st ready w h pix).2 now rnd)
    exact ⟨hr.1, hr.2.1⟩

theorem frameStep_active_count (st : State) (now : Int) (ready w h : Nat)
    (pix : List Rgb) (rnd : SpawnRnd)
    (hcnt : st.stars.countP (fun s => s.active) ≤ 6) :
    (frameStep st now ready w h pix rnd).1.stars.countP (fun s => s.active) ≤ 6 := by
  unfold frameStep
  split
  · exact hcnt
  · dsimp only
    have hd := detectMotion_fields st ready w h pix
    have hsp : (spawnStar (detectMotion st ready w h pix).2 now rnd).stars.countP
        (fun s => s.active) ≤ 6 := by
      refine spawnStar_active_count _ now rnd ?_
      rw [hd.2.1]
      exact hcnt
    have hr := runStars_active_count (detectMotion st ready w h pix).1
      (spawnStar (detectMotion st ready w h pix).2 now rnd).stars
      (spawnStar (detectMotion st ready w h pix).2 now rnd)
    omega

theorem frameStep_time (st : State) (now : Int) (ready w h : Nat)
    (pix : List Rgb) (rnd : SpawnRnd) :
    (frameStep st now ready w h pix rnd).1.lastStarTime = st.lastStarTime ∨
    st.lastStarTime < (frameStep st now ready w h pix rnd).1.lastStarTime := by
  unfold frameStep
  split
  · left; rfl
  · dsimp only
    have hd := detectMotion_fields st ready w h pix
    have hr := runStars_frame_fields (detectMotion st ready w h pix).1
      (spawnStar (detectMotion st ready w h pix).2 now rnd).stars
      (spawnStar (detectMotion st ready w h pix).2 now rnd)
    have hsp := spawnStar_time (detectMotion st ready w h pix).2 now rnd
    rw [hr.2.2.1]
    rcases hsp with hsp | hsp
    · left
      rw [hsp, hd.2.2.1]
    · right
      rw [hd.2.2.1] at hsp
      exact hsp.1

theorem spawnStar_ids_cases (st : State) (now : Int) (rnd : SpawnRnd) :
    (spawnStar st now rnd).stars.map Star.id = st.stars.map Star.id ∨
    (spawnStar st now rnd).stars.map Star.id = st.stars.map Star.id ++ [now] := by
  by_cases hg : 1000 < now - st.lastStarTime ∧
      (st.stars.filter fun s => s.active).length < 6
  · right
    simp [spawnStar, if_pos hg]
  · left
    simp [spawnStar, if_neg hg]

theorem frameStep_id_not_mem (st : State) (now : Int) (ready w h : Nat)
    (pix : List Rgb) (rnd : SpawnRnd) (i : Int)
    (hni : i ∉ st.stars.map Star.id) (hnn : i ≠ now) :
    i ∉ (frameStep st now ready w h pix rnd).1.stars.map Star.id := by
  unfold frameStep
  split
  · exact hni
  · dsimp only
    intro hmem
    have hd := detectMotion_fields st ready w h pix
    have hsub := runStars_ids_sublist (detectMotion st ready w h pix).1
      (spawnStar (detectMotion st ready w h pix).2 now rnd).stars
      (spawnStar (detectMotion st ready w h pix).2 now rnd)
    have hmem2 : i ∈ (spawnStar (detectMotion st ready w h pix).2 now rnd).stars.map
        Star.id := hsub.mem hmem
    rcases spawnStar_ids_cases (detectMotion st ready w h pix).2 now rnd with hc | hc <;>
      rw [hc, hd.2.1] at hmem2
    · exact hni hmem2
    · rcases List.mem_append.mp hmem2 with hm | hm
      · exact hni hm
      · simp only [List.mem_cons, List.not_mem_nil, or_false] at hm
        exact hnn hm

theorem frameStep_ids (st : State) (now : Int) (ready w h : Nat)
    (pix : List Rgb) (rnd : SpawnRnd)
    (hp : (st.stars.map Star.id).Pairwise (· < ·))
    (hb : ∀ s ∈ st.stars, s.id ≤ st.lastStarTime) :
    ((frameStep st now ready w h pix rnd).1.stars.map Star.id).Pairwise (· < ·) ∧
    (∀ s ∈ (frameStep st now ready w h pix rnd).1.stars,
      s.id ≤ (frameStep st now ready w h pix rnd).1.lastStarTime) := by
  unfold frameStep
  split
  · exact ⟨hp, hb⟩
  · dsimp only
    have hd := detectMotion_fields st ready w h pix
    have hsp := spawnStar_ids (detectMotion st ready w h pix).2 now rnd
      (by rw [hd.2.1]; exact hp)
      (by rw [hd.2.1, hd.2.2.1]; exact hb)
    have hsub := runStars_ids_sublist (detectMotion st ready w h pix).1
      (spawnStar (detectMotion st ready w h pix).2 now rnd).stars
      (spawnStar (detectMotion st ready w h pix).2 now rnd)
    have hrf := runStars_frame_fields (detectMotion st ready w h pix).1
      (spawnStar (detectMotion st ready w h pix).2 now rnd).stars
      (spawnStar (detectMotion st ready w h pix).2 now rnd)
    constructor
    · exact hsp.1.sublist hsub
    · intro s hs
      have hmem : s.id ∈ (spawnStar (detectMotion st ready w h pix).2 now rnd).stars.map
          Star.id := hsub.mem (List.mem_map_of_mem Star.id hs)
      obtain ⟨s2, hs2, hid⟩ := List.mem_map.mp hmem
      rw [hrf.2.2.1, ← hid]
      exact hsp.2 s2 hs2

theorem run_cameraActive : ∀ (evs : List Ev) (st : State),
    (run st evs).cameraActive = st.cameraActive := by
  intro evs
  induction evs with
  | nil => intro st; rfl
  | cons e evs ih =>
    intro st
    have hstep : ((step st e).1).cameraActive = st.cameraActive := by
      cases e with
      | start => simp only [step]; split <;> simp
      | record x y => simp only [step]; split <;> simp
      | frame now ready w h pix rnd => exact (frameStep_flags st now ready w h pix rnd).2
    simp only [run]
    rw [ih, hstep]

theorem runScore_inv : ∀ (evs : List Ev) (st : State) (c : Nat),
    st.score = 10 * c →
    (runScore st c evs).1.score = 10 * (runScore st c evs).2 := by
  intro evs
  induction evs with
  | nil => intro st c hsc; exact hsc
  | cons e evs ih =>
    intro st c hsc
    cases e with
    | start =>
      simp only [runScore, step]
      by_cases hp : st.isPlaying = true
      · rw [if_pos hp, if_pos hp]
        exact ih st c hsc
      · rw [if_neg hp, if_neg hp]
        exact ih _ 0 (by simp)
    | record x y =>
      simp only [runScore, step]
      refine ih _ c ?_
      split <;> simpa using hsc
    | frame now ready w h pix rnd =>
      simp only [runScore, step]
      refine ih _ _ ?_
      rw [frameStep_score st now ready w h pix rnd, hsc]
      ring

theorem run_active_count : ∀ (evs : List Ev) (st : State),
    st.stars.countP (fun s => s.active) ≤ 6 →
    (run st evs).stars.countP (fun s => s.active) ≤ 6 := by
  intro evs
  induction evs with
  | nil => intro st h; exact h
  | cons e evs ih =>
    intro st h
    simp only [run]
    refine ih _ ?_
    cases e with
    | start => simp only [step]; split; exact h; simp
    | record x y => simp only [step]; split <;> simpa using h
    | frame now ready w h' pix rnd => exact frameStep_active_count st now ready w h' pix rnd h

theorem step_touch_keep (st : State) (e : Ev) (hrec : isRecord e = false)
    (hs0 : st.lastTouchX = -1) : ((step st e).1).lastTouchX = -1 := by
  cases e with
  | start => simp only [step]; split <;> simpa using hs0
  | record x y => simp [isRecord] at hrec
  | frame now ready w h pix rnd => exact (frameStep_sentinel st now ready w h pix rnd hs0).1

theorem countPtr_of_sentinel : ∀ (evs : List Ev) (st : State),
    (∀ e ∈ evs, isRecord e = false) → st.lastTouchX = -1 →
    countPtr st evs = 0 := by
  intro evs
  induction evs with
  | nil => intro st _ _; rfl
  | cons e evs ih =>
    intro st hrec hs0
    have hrest := ih (step st e).1 (fun e' he' => hrec e' (List.mem_cons_of_mem e he'))
      (step_touch_keep st e (hrec e (List.mem_cons_self e evs)) hs0)
    have hz : (step st e).2.2 = 0 := by
      cases e with
      | start => rfl
      | record x y => rfl
      | frame now ready w h pix rnd => exact (frameStep_sentinel st now ready w h pix rnd hs0).2
    simp only [countPtr]
    omega

theorem countPtr_le_one : ∀ (evs : List Ev) (st : State),
    (∀ e ∈ evs, isRecord e = false) → countPtr st evs ≤ 1 := by
  intro evs
  induction evs with
  | nil => intro st _; simp [countPtr]
  | cons e evs ih =>
    intro st hrec
    have hrec' : ∀ e' ∈ evs, isRecord e' = false :=
      fun e' he' => hrec e' (List.mem_cons_of_mem e he')
    simp only [countPtr]
    cases e with
    | start => simpa [step] using ih _ hrec'
    | record x y =>
      have hbad := hrec _ (List.mem_cons_self _ evs)
      simp [isRecord] at hbad
    | frame now ready w h pix rnd =>
      have hf := frameStep_ptr st now ready w h pix rnd
      by_cases h1 : 1 ≤ (frameStep st now ready w h pix rnd).2.2
      · have hz := countPtr_of_sentinel evs (frameStep st now ready w h pix rnd).1
          hrec' (hf.2 h1)
        simp only [step]
        omega
      · have hrest := ih (frameStep st now ready w h pix rnd).1 hrec'
        simp only [step]
        omega

theorem step_time (st : State) (e : Ev) :
    ((step st e).1).lastStarTime = st.lastStarTime ∨
    st.lastStarTime < ((step st e).1).lastStarTime := by
  cases e with
  | start => left; simp only [step]; split <;> simp
  | record x y => left; simp only [step]; split <;> simp
  | frame now ready w h pix rnd => exact frameStep_time st now ready w h pix rnd

theorem spawnTimes_sorted : ∀ (evs : List Ev) (st : State),
    (spawnTimes st evs).Pairwise (· < ·) ∧
    ∀ t ∈ spawnTimes st evs, st.lastStarTime < t := by
  intro evs
  induction evs with
  | nil => intro st; simp [spawnTimes]
  | cons e evs ih =>
    intro st
    have ih' := ih (step st e).1
    simp only [spawnTimes]
    by_cases hc : ((step st e).1).lastStarTime = st.lastStarTime
    · rw [if_pos hc]
      simp only [List.nil_append]
      refine ⟨ih'.1, ?_⟩
      intro t ht
      have := ih'.2 t ht
      omega
    · rw [if_neg hc]
      have hlt : st.lastStarTime < ((step st e).1).lastStarTime := by
        rcases step_time st e with h | h
        · exact absurd h hc
        · exact h
      simp only [List.singleton_append]
      constructor
      · exact List.Pairwise.cons (fun t ht => ih'.2 t ht) ih'.1
      · intro t ht
        simp only [List.mem_cons] at ht
        rcases ht with rfl | ht
        · exact hlt
        · have := ih'.2 t ht
          omega

theorem run_ids : ∀ (evs : List Ev) (st : State),
    (st.stars.map Star.id).Pairwise (· < ·) →
    (∀ s ∈ st.stars, s.id ≤ st.lastStarTime) →
    ((run st evs).stars.map Star.id).Pairwise (· < ·) := by
  intro evs
  induction evs with
  | nil => intro st hp _; exact hp
  | cons e evs ih =>
    intro st hp hb
    simp only [run]
    cases e with
    | start =>
      refine ih _ ?_ ?_ <;> simp only [step] <;> split <;> simp_all
    | record x y =>
      refine ih _ ?_ ?_ <;> simp only [step] <;> split <;> simp_all
    | frame now ready w h pix rnd =>
      have hf := frameStep_ids st now ready w h pix rnd hp hb
      exact ih _ hf.1 hf.2

theorem fadeIn_eq_of_collected (star : Star) (h : star.collected = true) :
    fadeIn star = star := by
  unfold fadeIn
  rw [if_neg (by simp [h])]

theorem stepStar_hit_fresh (mask : MotionMask) (st : State) (star : Star)
    (ha : star.active = true) (hc : star.collected = false) :
    (stepStar mask st star).hit = hitSrcOf st mask star.x star.y := by
  unfold stepStar
  rw [if_neg (by simp [ha])]
  by_cases hs : (hitSrcOf st mask star.x star.y).isSome = true
  · rw [if_pos ⟨hs, hc⟩]
  · rw [if_neg (fun hb => hs hb.1)]
    cases hh : hitSrcOf st mask star.x star.y with
    | none => rfl
    | some v => rw [hh] at hs; simp at hs

theorem stepStar_collected_kept (mask : MotionMask) (st : State) (star : Star)
    (ha : star.active = true) (hc : star.collected = true) :
    (stepStar mask st star).kept = keepStar (burst star) := by
  unfold stepStar
  rw [if_neg (by simp [ha]), if_neg (by simp [hc]), fadeIn_eq_of_collected star hc]

theorem step_cameraActive (st : State) (e : Ev) :
    ((step st e).1).cameraActive = st.cameraActive := by
  cases e with
  | start => simp only [step]; split <;> simp
  | record x y => simp only [step]; split <;> simp
  | frame now ready w h pix rnd => exact (frameStep_flags st now ready w h pix rnd).2

theorem burst_collected (star : Star) (hc : star.collected = true) :
    burst star = (if 4 < star.scale + 2 / 10
      then { star with scale := star.scale + 2 / 10, active := false }
      else { star with scale := star.scale + 2 / 10 }) := by
  unfold burst
  rw [if_pos hc]

end OffEngine

namespace CamEngine

/-- Mutable engine state of the camera-only variant (`index.tsx`). -/
structure State where
  prevFrame : Option (List Rgb)
  score : Nat
  stars : List Star
  lastStarTime : Int
  isPlaying : Bool
deriving DecidableEq, Repr

/-- The constructor's field defaults. -/
def mkState : State :=
  { prevFrame := none, score := 0, stars := [], lastStarTime := 0, isPlaying := false }

/-- `detectMotion` of the camera-only variant (threshold 40, no readiness
guard). -/
def detectMotion (st : State) (w h : Nat) (pix : List Rgb) : MotionMask × State :=
  let mm := match st.prevFrame with
    | some prev => motionMapOf 40 pix prev
    | none => List.replicate pix.length false
  (⟨mm, w, h⟩, { st with prevFrame := some pix })

/-- `spawnStar` of the camera-only variant: interval strictly greater than
1500 ms, cap 5 active stars. -/
def spawnStar (st : State) (now : Int) (rnd : SpawnRnd) : State :=
  if 1500 < now - st.lastStarTime ∧ (st.stars.filter fun s => s.active).length < 5 then
    { st with
      stars := st.stars ++ [{ id := now,
                              x := 15 / 100 + rnd.rx * (7 / 10),
                              y := 2 / 10 + rnd.ry * (6 / 10),
                              size := 40 + rnd.rsize * 30,
                              hue := rnd.rhue * 360,
                              active := true, collected := false, scale := 0 }],
      lastStarTime := now }
  else st

/-- Spawn fade-in of the camera-only variant (rate 0.05). -/
def fadeIn (star : Star) : Star :=
  if star.collected = false ∧ star.scale < 1 then
    { star with scale := star.scale + 5 / 100 }
  else star

/-- The camera-only hit test: strictly more than `(radius*2+1)*2 = 14`
flagged cells in the radius-3 neighbourhood. -/
def camHit (mask : MotionMask) (x y : ℚ) : Bool :=
  decide ((3 * 2 + 1) * 2 < countHitsR 3 mask x y)

/-- Post-collection burst of the camera-only variant: scale grows by 0.2,
size by 5, deactivation once the scale exceeds the ceiling 3. -/
def burst (s : Star) : Star :=
  if s.collected = true then
    let s2 : Star := { s with scale := s.scale + 2 / 10, size := s.size + 5 }
    if 3 < s2.scale then { s2 with active := false } else s2
  else s

/-- One iteration of the star filter body of the camera-only `gameLoop`. -/
def stepStar (mask : MotionMask) (st : State) (star : Star) :
    State × Option Star × Bool :=
  if star.active = false then (st, none, false)
  else if camHit mask star.x star.y = true ∧ star.collected = false then
    ({ st with score := st.score + 10 },
      StarGame.keepStar (burst { fadeIn star with collected := true }), true)
  else
    (st, StarGame.keepStar (burst (fadeIn star)), false)

/-- The star filter of the camera-only variant, returning the final state,
the surviving stars and the number of collections. -/
def runStars (mask : MotionMask) : State → List Star → State × List Star × Nat
  | st, [] => (st, [], 0)
  | st, star :: rest =>
    let r := stepStar mask st star
    let fr := runStars mask r.1 rest
    (fr.1, r.2.1.toList ++ fr.2.1, (if r.2.2 then 1 else 0) + fr.2.2)

/-- One `gameLoop` iteration of the camera-only variant. -/
def frameStep (st : State) (now : Int) (w h : Nat) (pix : List Rgb)
    (rnd : SpawnRnd) : State × Nat :=
  if st.isPlaying = false then (st, 0)
  else
    let dm := detectMotion st w h pix
    let st2 := spawnStar dm.2 now rnd
    let fr := runStars dm.1 st2 st2.stars
    ({ fr.1 with stars := fr.2.1 }, fr.2.2)

/-- External events of the camera-only variant: the start button (which,
unlike the fallback variant, resets unconditionally) and animation
frames. -/
inductive Ev where
  | start
  | frame (now : Int) (w h : Nat) (pix : List Rgb) (rnd : SpawnRnd)

/-- One engine step of the camera-only variant. -/
def step (st : State) : Ev → State × Nat
  | .start => ({ st with isPlaying := true, score := 0, stars := [] }, 0)
  | .frame now w h pix rnd => frameStep st now w h pix rnd

/-- Run a list of events. -/
def run (st : State) : List Ev → State
  | [] => st
  | e :: evs => run (step st e).1 evs

/-- Run a list of events while counting the collections performed since the
session started (`start` resets the counter together with the score). -/
def runScore : State → Nat → List Ev → State × Nat
  | st, c, [] => (st, c)
  | st, _, .start :: evs => runScore (step st .start).1 0 evs
  | st, c, e :: evs => runScore (step st e).1 (c + (step st e).2) evs

/-- The ids of the stars spawned along a run of the camera-only variant. -/
def spawnTimes : State → List Ev → List Int
  | _, [] => []
  | st, e :: evs =>
    (if (step st e).1.lastStarTime = st.lastStarTime then []
     else [(step st e).1.lastStarTime]) ++ spawnTimes (step st e).1 evs

/-! Helper lemmas about the camera-only engine, mirroring the fallback
engine's development. -/

theorem cam_stepStar_st_eq (mask : MotionMask) (st : State) (star : Star) :
    (stepStar mask st star).1 =
      (if (stepStar mask st star).2.2 then { st with score := st.score + 10 } else st) := by
  unfold stepStar
  split
  · simp
  · split
    · simp
    · simp

theorem stepStar_fields (mask : MotionMask) (st : State) (star : Star) :
    (stepStar mask st star).1.prevFrame = st.prevFrame ∧
    (stepStar mask st star).1.stars = st.stars ∧
    (stepStar mask st star).1.lastStarTime = st.lastStarTime ∧
    (stepStar mask st star).1.isPlaying = st.isPlaying := by
  rw [cam_stepStar_st_eq]
  split <;> simp

theorem cam_stepStar_score (mask : MotionMask) (st : State) (star : Star) :
    (stepStar mask st star).1.score =
      st.score + (if (stepStar mask st star).2.2 then 10 else 0) := by
  rw [cam_stepStar_st_eq]
  split <;> simp

theorem cam_stepStar_collected (mask : MotionMask) (st : State) (star : Star)
    (h : star.collected = true) :
    (stepStar mask st star).1 = st ∧ (stepStar mask st star).2.2 = false := by
  unfold stepStar
  split
  · simp
  · split
    next hb => simp [h] at hb
    · simp

theorem cam_fadeIn_fields (s : Star) :
    (fadeIn s).id = s.id ∧ (fadeIn s).x = s.x ∧ (fadeIn s).y = s.y ∧
    (fadeIn s).active = s.active ∧ (fadeIn s).collected = s.collected := by
  unfold fadeIn
  split <;> simp

theorem cam_burst_fields (s : Star) :
    (burst s).id = s.id ∧ (burst s).x = s.x ∧ (burst s).y = s.y ∧
    (burst s).collected = s.collected := by
  unfold burst
  split
  · dsimp only
    split <;> simp
  · simp

theorem cam_stepStar_kept_id (mask : MotionMask) (st : State) (star : Star)
    (s' : Star) (h : (stepStar mask st star).2.1 = some s') : s'.id = star.id := by
  unfold stepStar at h
  split at h
  · simp at h
  · split at h <;> simp only at h <;>
      rcases OffEngine.keepStar_eq_some _ _ h with ⟨rfl, _⟩ <;>
      rw [(cam_burst_fields _).1] <;> exact (cam_fadeIn_fields star).1

theorem cam_stepStar_kept_alive (mask : MotionMask) (st : State) (star : Star)
    (s' : Star) (h : (stepStar mask st star).2.1 = some s') :
    s'.active = true ∧ star.active = true := by
  unfold stepStar at h
  split at h
  · simp at h
  next hact =>
    have hact' : star.active = true := by
      cases hs : star.active
      · exact absurd hs hact
      · rfl
    split at h <;> simp only at h <;>
      rcases OffEngine.keepStar_eq_some _ _ h with ⟨rfl, hA⟩ <;> exact ⟨hA, hact'⟩

theorem runStars_fields (mask : MotionMask) :
    ∀ (stars : List Star) (st : State),
    (runStars mask st stars).1.prevFrame = st.prevFrame ∧
    (runStars mask st stars).1.stars = st.stars ∧
    (runStars mask st stars).1.lastStarTime = st.lastStarTime ∧
    (runStars mask st stars).1.isPlaying = st.isPlaying := by
  intro stars
  induction stars with
  | nil => intro st; simp [runStars]
  | cons star rest ih =>
    intro st
    have h1 := stepStar_fields mask st star
    have h2 := ih (stepStar mask st star).1
    simp only [runStars]
    exact ⟨h2.1.trans h1.1, h2.2.1.trans h1.2.1, h2.2.2.1.trans h1.2.2.1,
      h2.2.2.2.trans h1.2.2.2⟩

theorem cam_runStars_score (mask : MotionMask) :
    ∀ (stars : List Star) (st : State),
    (runStars mask st stars).1.score = st.score + 10 * (runStars mask st stars).2.2 := by
  intro stars
  induction stars with
  | nil => intro st; simp [runStars]
  | cons star rest ih =>
    intro st
    have h1 := cam_stepStar_score mask st star
    have h2 := ih (stepStar mask st star).1
    simp only [runStars]
    rw [h2, h1]
    split <;> ring

theorem cam_runStars_ids_sublist (mask : MotionMask) :
    ∀ (stars : List Star) (st : State),
    List.Sublist ((runStars mask st stars).2.1.map Star.id) (stars.map Star.id) := by
  intro stars
  induction stars with
  | nil => intro st; simp [runStars]
  | cons star rest ih =>
    intro st
    have h2 := ih (stepStar mask st star).1
    simp only [runStars, List.map_cons, List.map_append]
    cases hk : (stepStar mask st star).2.1 with
    | none => simpa [hk] using h2.cons star.id
    | some s' =>
      have hid := cam_stepStar_kept_id mask st star s' hk
      simp only [hk, Option.toList_some, List.map_cons, List.map_nil,
        List.singleton_append, hid]
      exact h2.cons₂ star.id

theorem cam_runStars_active_count (mask : MotionMask) :
    ∀ (stars : List Star) (st : State),
    (runStars mask st stars).2.1.countP (fun s => s.active) ≤
      stars.countP (fun s => s.active) := by
  intro stars
  induction stars with
  | nil => intro st; simp [runStars]
  | cons star rest ih =>
    intro st
    have h2 := ih (stepStar mask st star).1
    simp only [runStars, List.countP_cons, List.countP_append]
    cases hk : (stepStar mask st star).2.1 with
    | none =>
      simp only [List.countP_nil, Option.toList_none]
      omega
    | some s' =>
      have ha := cam_stepStar_kept_alive mask st star s' hk
      simp only [Option.toList_some, List.countP_cons, List.countP_nil, ha.1, ha.2]
      omega

theorem cam_detectMotion_fields (st : State) (w h : Nat) (pix : List Rgb) :
    (detectMotion st w h pix).2.score = st.score ∧
    (detectMotion st w h pix).2.stars = st.stars ∧
    (detectMotion st w h pix).2.lastStarTime = st.lastStarTime ∧
    (detectMotion st w h pix).2.isPlaying = st.isPlaying := by
  unfold detectMotion
  simp

theorem cam_spawnStar_fields (st : State) (now : Int) (rnd : SpawnRnd) :
    (spawnStar st now rnd).prevFrame = st.prevFrame ∧
    (spawnStar st now rnd).score = st.score ∧
    (spawnStar st now rnd).isPlaying = st.isPlaying := by
  unfold spawnStar
  split <;> simp

theorem cam_spawnStar_active_count (st : State) (now : Int) (rnd : SpawnRnd)
    (h : st.stars.countP (fun s => s.active) ≤ 5) :
    (spawnStar st now rnd).stars.countP (fun s => s.active) ≤ 5 := by
  by_cases hg : 1500 < now - st.lastStarTime ∧
      (st.stars.filter fun s => s.active).length < 5
  · have hlt : st.stars.countP (fun s => s.active) < 5 := by
      have h5 := hg.2
      rwa [← List.countP_eq_length_filter] at h5
    simp only [spawnStar, if_pos hg]
    simp [List.countP_append, List.countP_cons]
    omega
  · simpa [spawnStar, if_neg hg] using h

theorem cam_spawnStar_time (st : State) (now : Int) (rnd : SpawnRnd) :
    (spawnStar st now rnd).lastStarTime = st.lastStarTime ∨
    (st.lastStarTime < (spawnStar st now rnd).lastStarTime ∧
      (spawnStar st now rnd).lastStarTime = now) := by
  by_cases hg : 1500 < now - st.lastStarTime ∧
      (st.stars.filter fun s => s.active).length < 5
  · right
    have hl : (spawnStar st now rnd).lastStarTime = now := by
      simp [spawnStar, if_pos hg]
    rw [hl]
    exact ⟨by omega, rfl⟩
  · left
    simp [spawnStar, if_neg hg]

theorem cam_spawnStar_changed (st : State) (now : Int) (rnd : SpawnRnd)
    (h : (spawnStar st now rnd).stars ≠ st.stars) :
    1500 < now - st.lastStarTime ∧
    (st.stars.filter fun s => s.active).length < 5 ∧
    (spawnStar st now rnd).lastStarTime = now ∧
    ∃ s : Star, (spawnStar st now rnd).stars = st.stars ++ [s] ∧
      s.id = now ∧ s.active = true ∧ s.collected = false ∧ s.scale = 0 := by
  by_cases hg : 1500 < now - st.lastStarTime ∧
      (st.stars.filter fun s => s.active).length < 5
  · refine ⟨hg.1, hg.2, by simp [spawnStar, if_pos hg], ?_⟩
    refine ⟨{ id := now, x := 15 / 100 + rnd.rx * (7 / 10),
              y := 2 / 10 + rnd.ry * (6 / 10), size := 40 + rnd.rsize * 30,
              hue := rnd.rhue * 360, active := true, collected := false,
              scale := 0 }, ?_, rfl, rfl, rfl, rfl⟩
    simp [spawnStar, if_pos hg]
  · exact absurd (by simp [spawnStar, if_neg hg]) h

theorem cam_spawnStar_ids (st : State) (now : Int) (rnd : SpawnRnd)
    (hp : ((st.stars.map Star.id).Pairwise (· < ·)))
    (hb : ∀ s ∈ st.stars, s.id ≤ st.lastStarTime) :
    (((spawnStar st now rnd).stars.map Star.id).Pairwise (· < ·)) ∧
    (∀ s ∈ (spawnStar st now rnd).stars, s.id ≤ (spawnStar st now rnd).lastStarTime) := by
  by_cases hg : 1500 < now - st.lastStarTime ∧
      (st.stars.filter fun s => s.active).length < 5
  · simp only [spawnStar, if_pos hg]
    constructor
    · simp only [List.map_append, List.map_cons, List.map_nil]
      rw [List.pairwise_append]
      refine ⟨hp, by simp, ?_⟩
      intro a ha b hb'
      simp only [List.mem_map] at ha
      obtain ⟨s, hs, rfl⟩ := ha
      simp only [List.mem_cons, List.not_mem_nil, or_false] at hb'
      subst hb'
      have hsb := hb s hs
      have h1 := hg.1
      omega
    · intro s hs
      simp only [List.mem_append, List.mem_cons, List.not_mem_nil, or_false] at hs
      rcases hs with hs | rfl
      · have hsb := hb s hs
        have h1 := hg.1
        omega
      · simp
  · simpa [spawnStar, if_neg hg] using ⟨hp, hb⟩

theorem cam_spawnStar_ids_cases (st : State) (now : Int) (rnd : SpawnRnd) :
    (spawnStar st now rnd).stars.map Star.id = st.stars.map Star.id ∨
    (spawnStar st now rnd).stars.map Star.id = st.stars.map Star.id ++ [now] := by
  by_cases hg : 1500 < now - st.lastStarTime ∧
      (st.stars.filter fun s => s.active).length < 5
  · right
    simp [spawnStar, if_pos hg]
  · left
    simp [spawnStar, if_neg hg]

theorem frameStep_isPlaying (st : State) (now : Int) (w h : Nat)
    (pix : List Rgb) (rnd : SpawnRnd) :
    (frameStep st now w h pix rnd).1.isPlaying = st.isPlaying := by
  unfold frameStep
  split
  · rfl
  · dsimp only
    have hd := cam_detectMotion_fields st w h pix
    have hs := cam_spawnStar_fields (detectMotion st w h pix).2 now rnd
    have hr := runStars_fields (detectMotion st w h pix).1
      (spawnStar (detectMotion st w h pix).2 now rnd).stars
      (spawnStar (detectMotion st w h pix).2 now rnd)
    rw [hr.2.2.2, hs.2.2, hd.2.2.2]

theorem cam_frameStep_score (st : State) (now : Int) (w h : Nat)
    (pix : List Rgb) (rnd : SpawnRnd) :
    (frameStep st now w h pix rnd).1.score =
      st.score + 10 * (frameStep st now w h pix rnd).2 := by
  unfold frameStep
  split
  · simp
  · dsimp only
    have hd := cam_detectMotion_fields st w h pix
    have hs := cam_spawnStar_fields (detectMotion st w h pix).2 now rnd
    have hr := cam_runStars_score (detectMotion st w h pix).1
      (spawnStar (detectMotion st w h pix).2 now rnd).stars
      (spawnStar (detectMotion st w h pix).2 now rnd)
    rw [hr, hs.2.1, hd.1]

theorem cam_frameStep_active_count (st : State) (now : Int) (w h : Nat)
    (pix : List Rgb) (rnd : SpawnRnd)
    (hcnt : st.stars.countP (fun s => s.active) ≤ 5) :
    (frameStep st now w h pix rnd).1.stars.countP (fun s => s.active) ≤ 5 := by
  unfold frameStep
  split
  · exact hcnt
  · dsimp only
    have hd := cam_detectMotion_fields st w h pix
    have hsp : (spawnStar (detectMotion st w h pix).2 now rnd).stars.countP
        (fun s => s.active) ≤ 5 := by
      refine cam_spawnStar_active_count _ now rnd ?_
      rw [hd.2.1]
      exact hcnt
    have hr := cam_runStars_active_count (detectMotion st w h pix).1
      (spawnStar (detectMotion st w h pix).2 now rnd).stars
      (spawnStar (detectMotion st w h pix).2 now rnd)
    omega

theorem cam_frameStep_time (st : State) (now : Int) (w h : Nat)
    (pix : List Rgb) (rnd : SpawnRnd) :
    (frameStep st now w h pix rnd).1.lastStarTime = st.lastStarTime ∨
    st.lastStarTime < (frameStep st now w h pix rnd).1.lastStarTime := by
  unfold frameStep
  split
  · left; rfl
  · dsimp only
    have hd := cam_detectMotion_fields st w h pix
    have hr := runStars_fields (detectMotion st w h pix).1
      (spawnStar (detectMotion st w h pix).2 now rnd).stars
      (spawnStar (detectMotion st w h pix).2 now rnd)
    have hsp := cam_spawnStar_time (detectMotion st w h pix).2 now rnd
    rw [hr.2.2.1]
    rcases hsp with hsp | hsp
    · left
      rw [hsp, hd.2.2.1]
    · right
      rw [hd.2.2.1] at hsp
      exact hsp.1

theorem cam_frameStep_id_not_mem (st : State) (now : Int) (w h : Nat)
    (pix : List Rgb) (rnd : SpawnRnd) (i : Int)
    (hni : i ∉ st.stars.map Star.id) (hnn : i ≠ now) :
    i ∉ (frameStep st now w h pix rnd).1.stars.map Star.id := by
  unfold frameStep
  split
  · exact hni
  · dsimp only
    intro hmem
    have hd := cam_detectMotion_fields st w h pix
    have hsub := cam_runStars_ids_sublist (detectMotion st w h pix).1
      (spawnStar (detectMotion st w h pix).2 now rnd).stars
      (spawnStar (detectMotion st w h pix).2 now rnd)
    have hmem2 : i ∈ (spawnStar (detectMotion st w h pix).2 now rnd).stars.map
        Star.id := hsub.mem hmem
    rcases cam_spawnStar_ids_cases (detectMotion st w h pix).2 now rnd with hc | hc <;>
      rw [hc, hd.2.1] at hmem2
    · exact hni hmem2
    · rcases List.mem_append.mp hmem2 with hm | hm
      · exact hni hm
      · simp only [List.mem_cons, List.not_mem_nil, or_false] at hm
        exact hnn hm

theorem cam_frameStep_ids (st : State) (now : Int) (w h : Nat)
    (pix : List Rgb) (rnd : SpawnRnd)
    (hp : (st.stars.map Star.id).Pairwise (· < ·))
    (hb : ∀ s ∈ st.stars, s.id ≤ st.lastStarTime) :
    ((frameStep st now w h pix rnd).1.stars.map Star.id).Pairwise (· < ·) ∧
    (∀ s ∈ (frameStep st now w h pix rnd).1.stars,
      s.id ≤ (frameStep st now w h pix rnd).1.lastStarTime) := by
  unfold frameStep
  split
  · exact ⟨hp, hb⟩
  · dsimp only
    have hd := cam_detectMotion_fields st w h pix
    have hsp := cam_spawnStar_ids (detectMotion st w h pix).2 now rnd
      (by rw [hd.2.1]; exact hp)
      (by rw [hd.2.1, hd.2.2.1]; exact hb)
    have hsub := cam_runStars_ids_sublist (detectMotion st w h pix).1
      (spawnStar (detectMotion st w h pix).2 now rnd).stars
      (spawnStar (detectMotion st w h pix).2 now rnd)
    have hrf := runStars_fields (detectMotion st w h pix).1
      (spawnStar (detectMotion st w h pix).2 now rnd).stars
      (spawnStar (detectMotion st w h pix).2 now rnd)
    constructor
    · exact hsp.1.sublist hsub
    · intro s hs
      have hmem : s.id ∈ (spawnStar (detectMotion st w h pix).2 now rnd).stars.map
          Star.id := hsub.mem (List.mem_map_of_mem Star.id hs)
      obtain ⟨s2, hs2, hid⟩ := List.mem_map.mp hmem
      rw [hrf.2.2.1, ← hid]
      exact hsp.2 s2 hs2

theorem cam_runScore_inv : ∀ (evs : List Ev) (st : State) (c : Nat),
    st.score = 10 * c →
    (runScore st c evs).1.score = 10 * (runScore st c evs).2 := by
  intro evs
  induction evs with
  | nil => intro st c hsc; exact hsc
  | cons e evs ih =>
    intro st c hsc
    cases e with
    | start =>
      simp only [runScore, step]
      exact ih _ 0 (by simp)
    | frame now w h pix rnd =>
      simp only [runScore, step]
      refine ih _ _ ?_
      rw [cam_frameStep_score st now w h pix rnd, hsc]
      ring

theorem cam_run_active_count : ∀ (evs : List Ev) (st : State),
    st.stars.countP (fun s => s.active) ≤ 5 →
    (run st evs).stars.countP (fun s => s.active) ≤ 5 := by
  intro evs
  induction evs with
  | nil => intro st h; exact h
  | cons e evs ih =>
    intro st h
    simp only [run]
    refine ih _ ?_
    cases e with
    | start => simp [step]
    | frame now w h' pix rnd => exact cam_frameStep_active_count st now w h' pix rnd h

theorem cam_step_time (st : State) (e : Ev) :
    ((step st e).1).lastStarTime = st.lastStarTime ∨
    st.lastStarTime < ((step st e).1).lastStarTime := by
  cases e with
  | start => left; simp [step]
  | frame now w h pix rnd => exact cam_frameStep_time st now w h pix rnd

theorem cam_spawnTimes_sorted : ∀ (evs : List Ev) (st : State),
    (spawnTimes st evs).Pairwise (· < ·) ∧
    ∀ t ∈ spawnTimes st evs, st.lastStarTime < t := by
  intro evs
  induction evs with
  | nil => intro st; simp [spawnTimes]
  | cons e evs ih =>
    intro st
    have ih' := ih (step st e).1
    simp only [spawnTimes]
    by_cases hc : ((step st e).1).lastStarTime = st.lastStarTime
    · rw [if_pos hc]
      simp only [List.nil_append]
      refine ⟨ih'.1, ?_⟩
      intro t ht
      have := ih'.2 t ht
      omega
    · rw [if_neg hc]
      have hlt : st.lastStarTime < ((step st e).1).lastStarTime := by
        rcases cam_step_time st e with h | h
        · exact absurd h hc
        · exact h
      simp only [List.singleton_append]
      constructor
      · exact List.Pairwise.cons (fun t ht => ih'.2 t ht) ih'.1
      · intro t ht
        simp only [List.mem_cons] at ht
        rcases ht with rfl | ht
        · exact hlt
        · have := ih'.2 t ht
          omega

theorem cam_run_ids : ∀ (evs : List Ev) (st : State),
    (st.stars.map Star.id).Pairwise (· < ·) →
    (∀ s ∈ st.stars, s.id ≤ st.lastStarTime) →
    ((run st evs).stars.map Star.id).Pairwise (· < ·) := by
  intro evs
  induction evs with
  | nil => intro st hp _; exact hp
  | cons e evs ih =>
    intro st hp hb
    simp only [run]
    cases e with
    | start =>
      refine ih _ ?_ ?_ <;> simp [step]
    | frame now w h pix rnd =>
      have hf := cam_frameStep_ids st now w h pix rnd hp hb
      exact ih _ hf.1 hf.2

theorem cam_fadeIn_eq_of_collected (star : Star) (h : star.collected = true) :
    fadeIn star = star := by
  unfold fadeIn
  rw [if_neg (by simp [h])]

theorem cam_stepStar_hit_fresh (mask : MotionMask) (st : State) (star : Star)
    (ha : star.active = true) (hc : star.collected = false) :
    (stepStar mask st star).2.2 = camHit mask star.x star.y := by
  unfold stepStar
  rw [if_neg (by simp [ha])]
  by_cases hcam : camHit mask star.x star.y = true
  · rw [if_pos ⟨hcam, hc⟩, hcam]
  · rw [if_neg (fun hb => hcam hb.1)]
    simp only
    cases hh : camHit mask star.x star.y with
    | false => rfl
    | true => exact absurd hh hcam

theorem cam_stepStar_collected_kept (mask : MotionMask) (st : State) (star : Star)
    (ha : star.active = true) (hc : star.collected = true) :
    (stepStar mask st star).2.1 = StarGame.keepStar (burst star) := by
  unfold stepStar
  rw [if_neg (by simp [ha]), if_neg (by simp [hc]), cam_fadeIn_eq_of_collected star hc]

theorem cam_burst_collected (star : Star) (hc : star.collected = true) :
    burst star = (if 3 < star.scale + 2 / 10
      then { star with scale := star.scale + 2 / 10, size := star.size + 5, active := false }
      else { star with scale := star.scale + 2 / 10, size := star.size + 5 }) := by
  unfold burst
  rw [if_pos hc]

end CamEngine

/-! Monotonicity of the motion mask in the sensitivity threshold. -/

theorem motionCell_mono (t1 t2 : Nat) (h : t1 ≤ t2) (c p : Rgb)
    (hc : motionCell t2 c p = true) : motionCell t1 c p = true := by
  unfold motionCell at *
  simp only [decide_eq_true_eq] at *
  omega

theorem motionMapOf_subset (t1 t2 : Nat) (h : t1 ≤ t2) :
    ∀ (cur prev : List Rgb) (i : Nat),
    (motionMapOf t2 cur prev).getD i false = true →
    (motionMapOf t1 cur prev).getD i false = true := by
  intro cur
  induction cur with
  | nil =>
    intro prev i hi
    simp [motionMapOf] at hi
  | cons c cur ih =>
    intro prev i hi
    cases prev with
    | nil =>
      cases i with
      | zero => simp [motionMapOf] at hi
      | succ j =>
        simp only [motionMapOf, List.getD_cons_succ] at hi ⊢
        exact ih [] j hi
    | cons p prev =>
      cases i with
      | zero =>
        simp only [motionMapOf, List.getD_cons_zero] at hi ⊢
        exact motionCell_mono t1 t2 h c p hi
      | succ j =>
        simp only [motionMapOf, List.getD_cons_succ] at hi ⊢
        exact ih prev j hi

theorem motionMapOf_count (t1 t2 : Nat) (h : t1 ≤ t2) :
    ∀ (cur prev : List Rgb),
    (motionMapOf t2 cur prev).count true ≤ (motionMapOf t1 cur prev).count true := by
  intro cur
  induction cur with
  | nil => intro prev; simp [motionMapOf]
  | cons c cur ih =>
    intro prev
    cases prev with
    | nil =>
      simp only [motionMapOf, List.count_cons]
      have := ih []
      omega
    | cons p prev =>
      simp only [motionMapOf, List.count_cons]
      have hc := ih prev
      by_cases hcell : motionCell t2 c p = true
      · have := motionCell_mono t1 t2 h c p hcell
        simp only [hcell, this]
        omega
      · have hb : (motionCell t2 c p == true) = false := by
          simp only [Bool.not_eq_true] at hcell
          simp [hcell]
        rw [hb, if_neg (by simp)]
        have hf : (motionMapOf t1 cur prev).count true ≤
            (if (motionCell t1 c p == true) = true then 1 else 0) +
              (motionMapOf t1 cur prev).count true := by
          split <;> omega
        omega


/-- Every lookup in an all-false cell list reads false. -/
theorem getD_replicate_false : ∀ (n i : Nat), (List.replicate n false).getD i false = false := by
  intro n
  induction n with
  | zero => intro i; rfl
  | succ m ih =>
    intro i
    cases i with
    | zero => rfl
    | succ j =>
      rw [List.replicate_succ, List.getD_cons_succ]
      exact ih j

/-- A mask whose every cell reads false contributes no neighbourhood hits. -/
theorem countHitsR_all_clear (r : Nat) (mask : MotionMask) (x y : ℚ)
    (h : ∀ i, mask.map.getD i false = false) : countHitsR r mask x y = 0 := by
  unfold countHitsR
  dsimp only
  generalize Int.floor (x * (mask.width : ℚ)) = gX
  generalize Int.floor (y * (mask.height : ℚ)) = gY
  generalize (List.range (2 * r + 1)).map (fun i => (i : Int) - r) = offs
  have inner : ∀ (dy : Int) (l : List Int) (acc : Nat),
      List.foldl (fun acc2 dx =>
        if 0 ≤ gX + dx ∧ gX + dx < (mask.width : Int) ∧ 0 ≤ gY + dy ∧
            gY + dy < (mask.height : Int) ∧
            mask.map.getD ((gY + dy) * (mask.width : Int) + (gX + dx)).toNat false = true
        then acc2 + 1 else acc2) acc l = acc := by
    intro dy l
    induction l with
    | nil => intro acc; rfl
    | cons d ds ih =>
      intro acc
      simp only [List.foldl_cons]
      have hcond : ¬ (0 ≤ gX + d ∧ gX + d < (mask.width : Int) ∧ 0 ≤ gY + dy ∧
          gY + dy < (mask.height : Int) ∧
          mask.map.getD ((gY + dy) * (mask.width : Int) + (gX + d)).toNat false = true) := by
        intro hcon
        have hx := hcon.2.2.2.2
        rw [h] at hx
        exact Bool.false_ne_true hx
      rw [if_neg hcond]
      exact ih acc
  have outer : ∀ (l : List Int) (acc : Nat),
      List.foldl (fun acc dy =>
        List.foldl (fun acc2 dx =>
          if 0 ≤ gX + dx ∧ gX + dx < (mask.width : Int) ∧ 0 ≤ gY + dy ∧
              gY + dy < (mask.height : Int) ∧
              mask.map.getD ((gY + dy) * (mask.width : Int) + (gX + dx)).toNat false = true
          then acc2 + 1 else acc2) acc offs) acc l = acc := by
    intro l
    induction l with
    | nil => intro acc; rfl
    | cons d ds ih =>
      intro acc
      simp only [List.foldl_cons]
      rw [inner d offs acc]
      exact ih acc
  exact outer offs 0

/-! The claim theorems. -/

/-- **C1**: the score increases by exactly the fixed reward of 10 on the
first frame a hit is detected against a star (the collection transition);
a star already collected never causes another score increase however many
further hit tests run against it; hence along every run of either engine
variant the score equals 10 times the number of stars collected since the
session started. -/
theorem claim_C1 :
    (∀ (mask : MotionMask) (st : OffEngine.State) (star : Star),
      star.collected = true →
      (OffEngine.stepStar mask st star).st = st ∧
      (OffEngine.stepStar mask st star).hit = none) ∧
    (∀ (mask : MotionMask) (st : OffEngine.State) (star : Star),
      star.active = true → star.collected = false →
      (OffEngine.stepStar mask st star).st.score =
        st.score +
          (if (OffEngine.hitSrcOf st mask star.x star.y).isSome then 10 else 0)) ∧
    (∀ (r : CamResult) (evs : List OffEngine.Ev),
      (OffEngine.runScore (OffEngine.init r) 0 evs).1.score =
        10 * (OffEngine.runScore (OffEngine.init r) 0 evs).2) ∧
    (∀ (mask : MotionMask) (st : CamEngine.State) (star : Star),
      star.collected = true →
      (CamEngine.stepStar mask st star).1 = st ∧
      (CamEngine.stepStar mask st star).2.2 = false) ∧
    (∀ evs : List CamEngine.Ev,
      (CamEngine.runScore CamEngine.mkState 0 evs).1.score =
        10 * (CamEngine.runScore CamEngine.mkState 0 evs).2) := by
  refine ⟨?_, ?_, ?_, ?_, ?_⟩
  · intro mask st star hc
    exact OffEngine.stepStar_collected mask st star hc
  · intro mask st star ha hc
    rw [OffEngine.stepStar_score, OffEngine.stepStar_hit_fresh mask st star ha hc]
  · intro r evs
    exact OffEngine.runScore_inv evs (OffEngine.init r) 0 (by cases r <;> rfl)
  · intro mask st star hc
    exact CamEngine.cam_stepStar_collected mask st star hc
  · intro evs
    exact CamEngine.cam_runScore_inv evs CamEngine.mkState 0 rfl

/-- **C1** witness: concrete instances of the hypothesised conjuncts. -/
theorem claim_C1_witness :
    ((OffEngine.stepStar emptyMask OffEngine.mkState
        { id := 1, x := 0, y := 0, size := 30, hue := 0,
          active := true, collected := true, scale := 1 }).st = OffEngine.mkState ∧
      (OffEngine.stepStar emptyMask OffEngine.mkState
        { id := 1, x := 0, y := 0, size := 30, hue := 0,
          active := true, collected := true, scale := 1 }).hit = none) ∧
    ((OffEngine.stepStar emptyMask OffEngine.mkState
        { id := 1, x := 0, y := 0, size := 30, hue := 0,
          active := true, collected := false, scale := 1 }).st.score =
      OffEngine.mkState.score +
        (if (OffEngine.hitSrcOf OffEngine.mkState emptyMask 0 0).isSome then 10 else 0)) ∧
    ((CamEngine.stepStar emptyMask CamEngine.mkState
        { id := 1, x := 0, y := 0, size := 40, hue := 0,
          active := true, collected := true, scale := 1 }).1 = CamEngine.mkState ∧
      (CamEngine.stepStar emptyMask CamEngine.mkState
        { id := 1, x := 0, y := 0, size := 40, hue := 0,
          active := true, collected := true, scale := 1 }).2.2 = false) :=
  ⟨claim_C1.1 emptyMask OffEngine.mkState _ rfl,
   claim_C1.2.1 emptyMask OffEngine.mkState _ rfl rfl,
   claim_C1.2.2.2.1 emptyMask CamEngine.mkState _ rfl⟩

/-- **C2**: at every reachable state the number of alive, not yet collected
stars never exceeds the cap (6 in the fallback variant, 5 in the
camera-only variant), and a spawn attempt adds a star only when the count
of active-flagged stars is below the cap. -/
theorem claim_C2 :
    (∀ (r : CamResult) (evs : List OffEngine.Ev),
      (OffEngine.run (OffEngine.init r) evs).stars.countP
        (fun s => s.active && !s.collected) ≤ 6) ∧
    (∀ evs : List CamEngine.Ev,
      (CamEngine.run CamEngine.mkState evs).stars.countP
        (fun s => s.active && !s.collected) ≤ 5) ∧
    (∀ (st : OffEngine.State) (now : Int) (rnd : SpawnRnd),
      (OffEngine.spawnStar st now rnd).stars ≠ st.stars →
      st.stars.countP (fun s => s.active) < 6 ∧
      (OffEngine.spawnStar st now rnd).stars.length = st.stars.length + 1) ∧
    (∀ (st : CamEngine.State) (now : Int) (rnd : SpawnRnd),
      (CamEngine.spawnStar st now rnd).stars ≠ st.stars →
      st.stars.countP (fun s => s.active) < 5 ∧
      (CamEngine.spawnStar st now rnd).stars.length = st.stars.length + 1) := by
  have halive : ∀ l : List Star,
      l.countP (fun s => s.active && !s.collected) ≤ l.countP (fun s => s.active) := by
    intro l
    refine List.countP_mono_left ?_
    intro s _ hs
    exact (Bool.and_eq_true _ _ |>.mp hs).1
  refine ⟨?_, ?_, ?_, ?_⟩
  · intro r evs
    have h6 := OffEngine.run_active_count evs (OffEngine.init r)
      (by cases r <;> simp [OffEngine.init, OffEngine.mkState])
    have := halive (OffEngine.run (OffEngine.init r) evs).stars
    omega
  · intro evs
    have h5 := CamEngine.cam_run_active_count evs CamEngine.mkState
      (by simp [CamEngine.mkState])
    have := halive (CamEngine.run CamEngine.mkState evs).stars
    omega
  · intro st now rnd h
    obtain ⟨_, hlen, _, s, happ, _⟩ := OffEngine.spawnStar_changed st now rnd h
    constructor
    · rwa [List.countP_eq_length_filter]
    · rw [happ, List.length_append, List.length_cons, List.length_nil]
  · intro st now rnd h
    obtain ⟨_, hlen, _, s, happ, _⟩ := CamEngine.cam_spawnStar_changed st now rnd h
    constructor
    · rwa [List.countP_eq_length_filter]
    · rw [happ, List.length_append, List.length_cons, List.length_nil]

/-- **C2** witness: a concrete successful spawn in each variant. -/
theorem claim_C2_witness :
    ((OffEngine.spawnStar OffEngine.mkState 2000 ⟨0, 0, 0, 0⟩).stars ≠
        OffEngine.mkState.stars ∧
      OffEngine.mkState.stars.countP (fun s => s.active) < 6) ∧
    ((CamEngine.spawnStar CamEngine.mkState 2000 ⟨0, 0, 0, 0⟩).stars ≠
        CamEngine.mkState.stars ∧
      CamEngine.mkState.stars.countP (fun s => s.active) < 5) :=
  ⟨⟨by decide, (claim_C2.2.2.1 OffEngine.mkState 2000 ⟨0, 0, 0, 0⟩ (by decide)).1⟩,
   ⟨by decide, (claim_C2.2.2.2 CamEngine.mkState 2000 ⟨0, 0, 0, 0⟩ (by decide)).1⟩⟩

/-- **C3** counterexample: in the fallback variant a camera hit registers
with only 5 of the 25 neighbourhood cells flagged (20%), which is below
the claimed threshold of roughly 35-45% of the neighbourhood cell count
(which would require at least 9 flagged cells). -/
theorem claim_C3_counterexample :
    OffEngine.hitSrcOf { OffEngine.mkState with cameraActive := true }
        ⟨List.replicate 5 true ++ List.replicate 20 false, 5, 5⟩ (1 / 2) (1 / 2) =
      some .cam ∧
    countHitsR 2 ⟨List.replicate 5 true ++ List.replicate 20 false, 5, 5⟩
        (1 / 2) (1 / 2) = 5 ∧
    5 * 100 < 35 * 25 :=
  ⟨by decide, by decide, by norm_num⟩

/-- **C3** (amended): a camera-sourced hit registers exactly when the
count of motion-flagged cells in the square neighbourhood around the
star's mapped grid cell exceeds the fixed absolute threshold of the
variant: strictly more than 4 of the 25 radius-2 cells (16%) in the
fallback variant, and strictly more than 14 of the 49 radius-3 cells
(about 29%) in the camera-only variant - not 35-45% of the neighbourhood
as claimed. -/
theorem claim_C3 :
    (∀ (st : OffEngine.State) (mask : MotionMask) (x y : ℚ),
      OffEngine.hitSrcOf st mask x y = some .cam ↔
        (OffEngine.pointerHit st.lastTouchX st.lastTouchY x y = false ∧
         st.cameraActive = true ∧ 0 < mask.width ∧ 4 < countHitsR 2 mask x y)) ∧
    (∀ (mask : MotionMask) (st : CamEngine.State) (star : Star),
      star.active = true → star.collected = false →
      ((CamEngine.stepStar mask st star).2.2 = true ↔
        14 < countHitsR 3 mask star.x star.y)) := by
  refine ⟨OffEngine.hitSrcOf_cam_iff, ?_⟩
  intro mask st star ha hc
  rw [CamEngine.cam_stepStar_hit_fresh mask st star ha hc]
  simp [CamEngine.camHit]

/-- **C3** witness: a concrete instance of the hypothesised conjunct. -/
theorem claim_C3_witness :
    (CamEngine.stepStar emptyMask CamEngine.mkState
        { id := 1, x := 0, y := 0, size := 40, hue := 0,
          active := true, collected := false, scale := 0 }).2.2 = true ↔
      14 < countHitsR 3 emptyMask 0 0 :=
  claim_C3.2 emptyMask CamEngine.mkState _ rfl rfl

/-- **C4**: a recorded pointer position is one-shot.  When a pointer-sourced
hit collects a star the stored pointer is reset to the sentinel; with the
sentinel stored the pointer check can never produce a hit; consequently,
over any run without new pointer activity the number of pointer-sourced
collections is zero from a cleared state and never exceeds one in
general. -/
theorem claim_C4 :
    (∀ (mask : MotionMask) (st : OffEngine.State) (star : Star),
      (OffEngine.stepStar mask st star).hit = some .ptr →
      (OffEngine.stepStar mask st star).st.lastTouchX = -1 ∧
      (OffEngine.stepStar mask st star).st.lastTouchY = -1) ∧
    (∀ (st : OffEngine.State) (mask : MotionMask) (x y : ℚ),
      st.lastTouchX = -1 → OffEngine.hitSrcOf st mask x y ≠ some .ptr) ∧
    (∀ (evs : List OffEngine.Ev) (st : OffEngine.State),
      (∀ e ∈ evs, OffEngine.isRecord e = false) → st.lastTouchX = -1 →
      OffEngine.countPtr st evs = 0) ∧
    (∀ (evs : List OffEngine.Ev) (st : OffEngine.State),
      (∀ e ∈ evs, OffEngine.isRecord e = false) →
      OffEngine.countPtr st evs ≤ 1) := by
  refine ⟨OffEngine.stepStar_hit_ptr, ?_, OffEngine.countPtr_of_sentinel,
    OffEngine.countPtr_le_one⟩
  intro st mask x y hs0 hc
  rw [OffEngine.hitSrcOf_ptr_iff, hs0, OffEngine.pointerHit_sentinel] at hc
  exact Bool.false_ne_true hc

/-- **C4** witness: concrete instances of the hypothesised conjuncts. -/
theorem claim_C4_witness :
    (OffEngine.hitSrcOf OffEngine.mkState emptyMask 0 0 ≠ some .ptr) ∧
    OffEngine.countPtr { OffEngine.mkState with isPlaying := true }
      [.frame 2000 0 0 0 [] ⟨0, 0, 0, 0⟩] = 0 ∧
    OffEngine.countPtr { OffEngine.mkState with isPlaying := true, lastTouchX := 1 / 2 }
      [.frame 2000 0 0 0 [] ⟨0, 0, 0, 0⟩] ≤ 1 :=
  ⟨claim_C4.2.1 OffEngine.mkState emptyMask 0 0 rfl,
   claim_C4.2.2.1 [.frame 2000 0 0 0 [] ⟨0, 0, 0, 0⟩] _ (by decide) rfl,
   claim_C4.2.2.2 [.frame 2000 0 0 0 [] ⟨0, 0, 0, 0⟩] _ (by decide)⟩

/-- **C5**: the two hit sources are checked in short-circuit order: when
the pointer check hits, the whole per-star step is independent of the
motion mask (the camera check cannot influence the outcome); a hit is
attributed to the pointer exactly when the pointer check succeeds, and to
the camera only when the pointer check produced no hit. -/
theorem claim_C5 :
    (∀ (st : OffEngine.State) (mask mask' : MotionMask) (star : Star),
      OffEngine.pointerHit st.lastTouchX st.lastTouchY star.x star.y = true →
      OffEngine.stepStar mask st star = OffEngine.stepStar mask' st star) ∧
    (∀ (st : OffEngine.State) (mask : MotionMask) (x y : ℚ),
      OffEngine.hitSrcOf st mask x y = some .ptr ↔
        OffEngine.pointerHit st.lastTouchX st.lastTouchY x y = true) ∧
    (∀ (st : OffEngine.State) (mask : MotionMask) (x y : ℚ),
      OffEngine.hitSrcOf st mask x y = some .cam →
        OffEngine.pointerHit st.lastTouchX st.lastTouchY x y = false) := by
  refine ⟨?_, OffEngine.hitSrcOf_ptr_iff, ?_⟩
  · intro st mask mask' star h
    unfold OffEngine.stepStar
    rw [OffEngine.hitSrcOf_of_ptr st mask _ _ h, OffEngine.hitSrcOf_of_ptr st mask' _ _ h]
  · intro st mask x y hc
    exact ((OffEngine.hitSrcOf_cam_iff st mask x y).mp hc).1

/-- **C5** witness: with a pointer stored over the star, the per-star step
gives the same result for the empty mask and for a fully flagged mask. -/
theorem claim_C5_witness :
    OffEngine.stepStar emptyMask
      { OffEngine.mkState with lastTouchX := 1 / 2, lastTouchY := 1 / 2 }
      { id := 1, x := 1 / 2, y := 1 / 2, size := 30, hue := 0,
        active := true, collected := false, scale := 1 } =
    OffEngine.stepStar ⟨List.replicate 25 true, 5, 5⟩
      { OffEngine.mkState with lastTouchX := 1 / 2, lastTouchY := 1 / 2 }
      { id := 1, x := 1 / 2, y := 1 / 2, size := 30, hue := 0,
        active := true, collected := false, scale := 1 } :=
  claim_C5.1 _ emptyMask ⟨List.replicate 25 true, 5, 5⟩ _ (by decide)

/-- **C6**: if camera acquisition fails (API unsupported, device not found
or permission denied) initialisation completes in fallback mode without
raising an error, and the mode stays fallback for the whole session: no
engine step ever changes the `cameraActive` flag, so no later operation
switches back to camera mode. -/
theorem claim_C6 :
    (∀ r : CamResult, r ≠ .ok → (OffEngine.init r).cameraActive = false) ∧
    (∀ (st : OffEngine.State) (e : OffEngine.Ev),
      ((OffEngine.step st e).1).cameraActive = st.cameraActive) ∧
    (∀ (r : CamResult) (evs : List OffEngine.Ev), r ≠ .ok →
      (OffEngine.run (OffEngine.init r) evs).cameraActive = false) := by
  have h1 : ∀ r : CamResult, r ≠ .ok → (OffEngine.init r).cameraActive = false := by
    intro r hr
    cases r with
    | ok => exact absurd rfl hr
    | unsupported => rfl
    | notFound => rfl
    | denied => rfl
  refine ⟨h1, OffEngine.step_cameraActive, ?_⟩
  intro r evs hr
  rw [OffEngine.run_cameraActive]
  exact h1 r hr

/-- **C6** witness: a denied-permission session stays in fallback mode. -/
theorem claim_C6_witness :
    (OffEngine.init .denied).cameraActive = false ∧
    (OffEngine.run (OffEngine.init .denied) [.start]).cameraActive = false :=
  ⟨claim_C6.1 .denied (by decide), claim_C6.2.2 .denied [.start] (by decide)⟩

/-- **C7**: a collected star's scale grows by the fixed burst rate each
frame; the star survives the frame exactly while the grown scale stays at
or below the expiry ceiling (4 in the fallback variant, 3 in the
camera-only variant) and is dropped from the collection on the frame the
scale crosses it; a star id absent from the collection (and distinct from
the current spawn timestamp) never reappears, so removal is permanent and
the star is never rendered again. -/
theorem claim_C7 :
    (∀ (mask : MotionMask) (st : OffEngine.State) (star : Star),
      star.active = true → star.collected = true →
      (∀ s', (OffEngine.stepStar mask st star).kept = some s' →
        s'.scale = star.scale + 2 / 10 ∧ star.scale < s'.scale) ∧
      ((OffEngine.stepStar mask st star).kept = none ↔ 4 < star.scale + 2 / 10)) ∧
    (∀ (mask : MotionMask) (st : CamEngine.State) (star : Star),
      star.active = true → star.collected = true →
      (∀ s', (CamEngine.stepStar mask st star).2.1 = some s' →
        s'.scale = star.scale + 2 / 10 ∧ star.scale < s'.scale) ∧
      ((CamEngine.stepStar mask st star).2.1 = none ↔ 3 < star.scale + 2 / 10)) ∧
    (∀ (st : OffEngine.State) (now : Int) (ready w h : Nat) (pix : List Rgb)
        (rnd : SpawnRnd) (i : Int),
      i ∉ st.stars.map Star.id → i ≠ now →
      i ∉ (OffEngine.frameStep st now ready w h pix rnd).1.stars.map Star.id) ∧
    (∀ (st : CamEngine.State) (now : Int) (w h : Nat) (pix : List Rgb)
        (rnd : SpawnRnd) (i : Int),
      i ∉ st.stars.map Star.id → i ≠ now →
      i ∉ (CamEngine.frameStep st now w h pix rnd).1.stars.map Star.id) := by
  refine ⟨?_, ?_, OffEngine.frameStep_id_not_mem, CamEngine.cam_frameStep_id_not_mem⟩
  · intro mask st star ha hc
    rw [OffEngine.stepStar_collected_kept mask st star ha hc,
      OffEngine.burst_collected star hc]
    by_cases hce : (4:ℚ) < star.scale + 2 / 10
    · rw [if_pos hce]
      constructor
      · intro s' hs'
        rcases OffEngine.keepStar_eq_some _ _ hs' with ⟨rfl, hA⟩
        simp at hA
      · simp only [keepStar]
        rw [if_neg (by simp)]
        simp [hce]
    · rw [if_neg hce]
      constructor
      · intro s' hs'
        rcases OffEngine.keepStar_eq_some _ _ hs' with ⟨rfl, _⟩
        exact ⟨rfl, by linarith⟩
      · simp only [keepStar]
        rw [if_pos (by simpa using ha)]
        simp [hce]
  · intro mask st star ha hc
    rw [CamEngine.cam_stepStar_collected_kept mask st star ha hc,
      CamEngine.cam_burst_collected star hc]
    by_cases hce : (3:ℚ) < star.scale + 2 / 10
    · rw [if_pos hce]
      constructor
      · intro s' hs'
        rcases OffEngine.keepStar_eq_some _ _ hs' with ⟨rfl, hA⟩
        simp at hA
      · simp only [keepStar]
        rw [if_neg (by simp)]
        simp [hce]
    · rw [if_neg hce]
      constructor
      · intro s' hs'
        rcases OffEngine.keepStar_eq_some _ _ hs' with ⟨rfl, _⟩
        exact ⟨rfl, by linarith⟩
      · simp only [keepStar]
        rw [if_pos (by simpa using ha)]
        simp [hce]

/-- **C7** witness: a collected star just below the ceiling survives with
its scale grown by 0.2; ids never reappear after removal in a concrete
frame. -/
theorem claim_C7_witness :
    ((OffEngine.stepStar emptyMask OffEngine.mkState
        { id := 1, x := 0, y := 0, size := 30, hue := 0,
          active := true, collected := true, scale := 39 / 10 }).kept = none ↔
      (4:ℚ) < 39 / 10 + 2 / 10) ∧
    ((5:Int) ∉ (OffEngine.frameStep OffEngine.mkState 2000 0 0 0 [] ⟨0, 0, 0, 0⟩).1.stars.map
      Star.id) :=
  ⟨(claim_C7.1 emptyMask OffEngine.mkState _ rfl rfl).2,
   claim_C7.2.2.1 OffEngine.mkState 2000 0 0 0 [] ⟨0, 0, 0, 0⟩ 5 (by decide) (by decide)⟩

/-- **C8** counterexample: the camera-only variant's motion-sampling step
has no readiness guard and never returns an empty (`width=0,height=0`)
mask.  In the state in which no video frame has yet been readable (no
retained previous frame; in the browser, `drawImage` silently leaves the
sampling canvas blank in that situation), it still returns a mask carrying
the sampling canvas's dimensions - here 5 by 5, not 0 by 0 - so the claim
as stated is false for this cited implementation. -/
theorem claim_C8_counterexample :
    (CamEngine.detectMotion CamEngine.mkState 5 5
        (List.replicate 25 ⟨0, 0, 0⟩)).1.width = 5 ∧
    (CamEngine.detectMotion CamEngine.mkState 5 5
        (List.replicate 25 ⟨0, 0, 0⟩)).1.height = 5 ∧
    ¬ ((CamEngine.detectMotion CamEngine.mkState 5 5
          (List.replicate 25 ⟨0, 0, 0⟩)).1.width = 0 ∧
       (CamEngine.detectMotion CamEngine.mkState 5 5
          (List.replicate 25 ⟨0, 0, 0⟩)).1.height = 0) :=
  ⟨rfl, rfl, by decide⟩

/-- **C8** (amended): only the fallback variant's motion-sampling step has
the readiness guard: when the camera is not active or no readable frame is
available (`readyState < 2`), it returns the empty mask (width 0,
height 0) and leaves the engine state untouched instead of failing; with
an empty mask no camera-sourced hit is possible; and a frame iteration
never changes `isPlaying`, so the condition never aborts the frame loop.
The camera-only variant's step has no such guard: it always returns a
mask with the sampling canvas's dimensions; there, before any previous
frame has been retained the mask is all-clear, so no camera-sourced hit
is possible that frame, and its frame loop is likewise never aborted. -/
theorem claim_C8 :
    (∀ (st : OffEngine.State) (ready w h : Nat) (pix : List Rgb),
      st.cameraActive = false ∨ ready < 2 →
      OffEngine.detectMotion st ready w h pix = (emptyMask, st)) ∧
    (∀ (st : OffEngine.State) (mask : MotionMask) (x y : ℚ),
      mask.width = 0 → OffEngine.hitSrcOf st mask x y ≠ some .cam) ∧
    (∀ (st : OffEngine.State) (now : Int) (ready w h : Nat) (pix : List Rgb)
        (rnd : SpawnRnd),
      (OffEngine.frameStep st now ready w h pix rnd).1.isPlaying = st.isPlaying) ∧
    (∀ (st : CamEngine.State) (w h : Nat) (pix : List Rgb),
      (CamEngine.detectMotion st w h pix).1.width = w ∧
      (CamEngine.detectMotion st w h pix).1.height = h) ∧
    (∀ (st : CamEngine.State) (w h : Nat) (pix : List Rgb) (x y : ℚ),
      st.prevFrame = none →
      CamEngine.camHit (CamEngine.detectMotion st w h pix).1 x y = false) ∧
    (∀ (st : CamEngine.State) (now : Int) (w h : Nat) (pix : List Rgb)
        (rnd : SpawnRnd),
      (CamEngine.frameStep st now w h pix rnd).1.isPlaying = st.isPlaying) := by
  refine ⟨?_, ?_, ?_, ?_, ?_, ?_⟩
  · intro st ready w h pix hcond
    unfold OffEngine.detectMotion
    rw [if_pos hcond]
  · intro st mask x y hw hc
    have := ((OffEngine.hitSrcOf_cam_iff st mask x y).mp hc).2.2.1
    omega
  · intro st now ready w h pix rnd
    exact (OffEngine.frameStep_flags st now ready w h pix rnd).1
  · intro st w h pix
    exact ⟨rfl, rfl⟩
  · intro st w h pix x y hp
    unfold CamEngine.detectMotion
    rw [hp]
    simp only [CamEngine.camHit]
    rw [countHitsR_all_clear 3 _ x y (fun i => getD_replicate_false pix.length i)]
    decide
  · intro st now w h pix rnd
    exact CamEngine.frameStep_isPlaying st now w h pix rnd

/-- **C8** witness: concrete instances of the hypothesised conjuncts. -/
theorem claim_C8_witness :
    OffEngine.detectMotion OffEngine.mkState 4 5 5 [] = (emptyMask, OffEngine.mkState) ∧
    OffEngine.hitSrcOf OffEngine.mkState emptyMask 0 0 ≠ some .cam ∧
    CamEngine.camHit (CamEngine.detectMotion CamEngine.mkState 5 5
      (List.replicate 25 ⟨0, 0, 0⟩)).1 0 0 = false :=
  ⟨claim_C8.1 OffEngine.mkState 4 5 5 [] (Or.inl rfl),
   claim_C8.2.1 OffEngine.mkState emptyMask 0 0 rfl,
   claim_C8.2.2.2.2.1 CamEngine.mkState 5 5 (List.replicate 25 ⟨0, 0, 0⟩) 0 0 rfl⟩

/-- **C9**: the motion mask is monotone in the per-cell difference
threshold: for thresholds t1 ≤ t2, every cell flagged at t2 is flagged at
t1 (the lower threshold yields a superset of flagged cells), and the
flagged-cell count at t2 never exceeds the count at t1. -/
theorem claim_C9 :
    ∀ (t1 t2 : Nat), t1 ≤ t2 → ∀ (cur prev : List Rgb),
      (∀ i : Nat, (motionMapOf t2 cur prev).getD i false = true →
        (motionMapOf t1 cur prev).getD i false = true) ∧
      (motionMapOf t2 cur prev).count true ≤ (motionMapOf t1 cur prev).count true := by
  intro t1 t2 h cur prev
  exact ⟨fun i => motionMapOf_subset t1 t2 h cur prev i, motionMapOf_count t1 t2 h cur prev⟩

/-- **C9** witness: a concrete frame pair evaluated at thresholds 10 and
35. -/
theorem claim_C9_witness :
    ((motionMapOf 35 [⟨100, 0, 0⟩] [⟨0, 0, 0⟩]).getD 0 false = true →
      (motionMapOf 10 [⟨100, 0, 0⟩] [⟨0, 0, 0⟩]).getD 0 false = true) ∧
    (motionMapOf 35 [⟨100, 0, 0⟩] [⟨0, 0, 0⟩]).count true ≤
      (motionMapOf 10 [⟨100, 0, 0⟩] [⟨0, 0, 0⟩]).count true :=
  ⟨(claim_C9 10 35 (by decide) [⟨100, 0, 0⟩] [⟨0, 0, 0⟩]).1 0,
   (claim_C9 10 35 (by decide) [⟨100, 0, 0⟩] [⟨0, 0, 0⟩]).2⟩

/-- **C10**: all stars ever spawned in a session carry pairwise distinct,
strictly increasing ids: a spawn succeeds only when strictly more than the
minimum interval (1000 ms / 1500 ms) has elapsed since the previous
successful spawn, the new star's id is the spawn timestamp, the sequence
of spawned ids along any run is strictly increasing (hence pairwise
distinct), and the ids in the current collection are always strictly
increasing. -/
theorem claim_C10 :
    (∀ (r : CamResult) (evs : List OffEngine.Ev),
      (OffEngine.spawnTimes (OffEngine.init r) evs).Pairwise (· < ·) ∧
      (OffEngine.spawnTimes (OffEngine.init r) evs).Pairwise (· ≠ ·)) ∧
    (∀ (st : OffEngine.State) (now : Int) (rnd : SpawnRnd),
      (OffEngine.spawnStar st now rnd).stars ≠ st.stars →
      1000 < now - st.lastStarTime ∧
      ∃ s : Star, (OffEngine.spawnStar st now rnd).stars = st.stars ++ [s] ∧ s.id = now) ∧
    (∀ (r : CamResult) (evs : List OffEngine.Ev),
      ((OffEngine.run (OffEngine.init r) evs).stars.map Star.id).Pairwise (· < ·)) ∧
    (∀ evs : List CamEngine.Ev,
      (CamEngine.spawnTimes CamEngine.mkState evs).Pairwise (· < ·) ∧
      (CamEngine.spawnTimes CamEngine.mkState evs).Pairwise (· ≠ ·)) ∧
    (∀ (st : CamEngine.State) (now : Int) (rnd : SpawnRnd),
      (CamEngine.spawnStar st now rnd).stars ≠ st.stars →
      1500 < now - st.lastStarTime ∧
      ∃ s : Star, (CamEngine.spawnStar st now rnd).stars = st.stars ++ [s] ∧ s.id = now) ∧
    (∀ evs : List CamEngine.Ev,
      ((CamEngine.run CamEngine.mkState evs).stars.map Star.id).Pairwise (· < ·)) := by
  refine ⟨?_, ?_, ?_, ?_, ?_, ?_⟩
  · intro r evs
    have h := (OffEngine.spawnTimes_sorted evs (OffEngine.init r)).1
    exact ⟨h, h.imp fun hlt => ne_of_lt hlt⟩
  · intro st now rnd h
    obtain ⟨hg, _, _, s, happ, hid, _⟩ := OffEngine.spawnStar_changed st now rnd h
    exact ⟨hg, s, happ, hid⟩
  · intro r evs
    refine OffEngine.run_ids evs (OffEngine.init r) ?_ ?_ <;>
      cases r <;> simp [OffEngine.init, OffEngine.mkState]
  · intro evs
    have h := (CamEngine.cam_spawnTimes_sorted evs CamEngine.mkState).1
    exact ⟨h, h.imp fun hlt => ne_of_lt hlt⟩
  · intro st now rnd h
    obtain ⟨hg, _, _, s, happ, hid, _⟩ := CamEngine.cam_spawnStar_changed st now rnd h
    exact ⟨hg, s, happ, hid⟩
  · intro evs
    refine CamEngine.cam_run_ids evs CamEngine.mkState ?_ ?_ <;>
      simp [CamEngine.mkState]

/-- **C10** witness: concrete successful spawns in each variant. -/
theorem claim_C10_witness :
    (1000 < (2000:Int) - OffEngine.mkState.lastStarTime ∧
      ∃ s : Star, (OffEngine.spawnStar OffEngine.mkState 2000 ⟨0, 0, 0, 0⟩).stars =
        OffEngine.mkState.stars ++ [s] ∧ s.id = 2000) ∧
    (1500 < (2000:Int) - CamEngine.mkState.lastStarTime ∧
      ∃ s : Star, (CamEngine.spawnStar CamEngine.mkState 2000 ⟨0, 0, 0, 0⟩).stars =
        CamEngine.mkState.stars ++ [s] ∧ s.id = 2000) :=
  ⟨claim_C10.2.1 OffEngine.mkState 2000 ⟨0, 0, 0, 0⟩ (by decide),
   claim_C10.2.2.2.2.1 CamEngine.mkState 2000 ⟨0, 0, 0, 0⟩ (by decide)⟩

end StarGame
